import Mathlib

/-!
# envee: binding environment variables into a configuration structure

A shallow embedding of `envee.go` and a verification of its specification.

* Go strings are Lean strings; `strings.Split` on a one-character separator
  is `strings.Split`.
* Go's `(value, error)` results are `Except GoError _`: the value next to a
  non-nil error is never read by the package.
* The operating-system environment is a function from variable names to
  optional values (`os.LookupEnv`), and every call made to it is recorded.
* The standard-library parsers that work on floating point numbers
  (`strconv.ParseFloat`, `time.ParseDuration`) and the platform's `int` width
  are taken as parameters (`Runtime`); the integer and boolean parsers of
  `strconv` are written out for base 10.
* A structure value is the list of its fields in declaration order (`Struct`);
  every field is exported, as `reflect.Value.Set` demands.
* An error keeps the format and the operands of its `fmt.Errorf`; its message
  is rendered by `GoError.Error`, with `strconv.Quote` (the verb `%q`) as a
  parameter.
-/

namespace envee

/-! ## Errors -/

/-- The four package-level error variables created with `errors.New`. -/
inductive Sentinel
  | ErrMissingRequired
  | ErrNotProcessable
  | ErrUnknownTagValue
  | ErrUnsupportedType
deriving DecidableEq, Repr

/-- The two causes a `*strconv.NumError` can carry (`ErrSyntax`, `ErrRange`). -/
inductive NumCause
  | invalid
  | outOfRange
deriving DecidableEq, Repr

/-- Go error values as the package produces and inspects them.
`wrap format args inner` is `fmt.Errorf(format, ...)` whose `%w` operand is
`inner` and whose other operands, in order, are `args`. -/
inductive GoError
  | sentinel (s : Sentinel)
  | num (Func : String) (Num : String) (cause : NumCause)
  | duration (msg : String)
  | wrap (format : String) (args : List String) (inner : GoError)
deriving DecidableEq, Repr

/-- `errors.Is(err, target)` for a target that is one of the package's
sentinels: follow the `%w` chain and compare by identity. The errors of
`strconv` and `time` never unwrap to a sentinel of this package. -/
def GoError.Is : GoError → Sentinel → Bool
  | .sentinel s, t => decide (s = t)
  | .num _ _ _, _ => false
  | .duration _, _ => false
  | .wrap _ _ inner, t => inner.Is t

/-! ## Reflection: kinds, types, values, struct tags -/

/-- The constants of `reflect.Kind`. -/
inductive Kind
  | Invalid | Bool | Int | Int8 | Int16 | Int32 | Int64
  | Uint | Uint8 | Uint16 | Uint32 | Uint64 | Uintptr
  | Float32 | Float64 | Complex64 | Complex128
  | Array | Chan | Func | Interface | Map | Pointer | Slice
  | String | Struct | UnsafePointer
deriving DecidableEq, Repr

/-- `reflect.Kind.String`, the name `%s` prints. -/
def kindName : Kind → String
  | .Invalid => "invalid" | .Bool => "bool" | .Int => "int" | .Int8 => "int8"
  | .Int16 => "int16" | .Int32 => "int32" | .Int64 => "int64"
  | .Uint => "uint" | .Uint8 => "uint8" | .Uint16 => "uint16"
  | .Uint32 => "uint32" | .Uint64 => "uint64" | .Uintptr => "uintptr"
  | .Float32 => "float32" | .Float64 => "float64"
  | .Complex64 => "complex64" | .Complex128 => "complex128"
  | .Array => "array" | .Chan => "chan" | .Func => "func"
  | .Interface => "interface" | .Map => "map" | .Pointer => "ptr"
  | .Slice => "slice" | .String => "string" | .Struct => "struct"
  | .UnsafePointer => "unsafe.Pointer"

/-- A `reflect.Type` as far as the package looks at it: the package path and
name identify a defined type, `Name` is what `t.Name()` returns, `Kind` what
`t.Kind()` returns. -/
structure RType where
  PkgPath : String
  Name : String
  Kind : Kind
deriving DecidableEq, Repr

/-- The predeclared type of a primitive kind (`int`, `uint8`, `string`, ...). -/
def predeclared (k : Kind) : RType := ⟨"", kindName k, k⟩

/-- The type `time.Duration`. -/
def timeDuration : RType := ⟨"time", "Duration", .Int64⟩

/-- The data carried by a Go value. Floating point numbers are kept as the
bit pattern the runtime's parser returned. -/
inductive Data
  | int (n : Int)
  | uint (n : Nat)
  | str (s : String)
  | bool (b : Bool)
  | float (bits : Nat)
  | zero
deriving DecidableEq, Repr

/-- A Go value together with its dynamic type (`reflect.ValueOf`). -/
structure Value where
  typ : RType
  data : Data
deriving DecidableEq, Repr

/-- A `reflect.StructTag` in the conventional format: its `key:"value"` pairs
in the order written. -/
abbrev StructTag := List (String × String)

/-- `StructTag.Lookup`: the value of the first pair with the given key. -/
def StructTag.Lookup (tag : StructTag) (key : String) : Option String :=
  match tag with
  | [] => none
  | (k, v) :: rest => if k = key then some v else StructTag.Lookup rest key

/-- `StructTag.Get`: the looked-up value, or the empty string. -/
def StructTag.Get (tag : StructTag) (key : String) : String :=
  match StructTag.Lookup tag key with
  | some v => v
  | none => ""

/-! ## The parts of the standard library the package calls -/

/-- What the package takes from the platform and from the floating point
parsers of the standard library. -/
structure Runtime where
  /-- Width of `int` in bits (`strconv.IntSize`). -/
  IntSize : Nat
  /-- `strconv.ParseFloat(s, bitSize)`: the bits of the result or the cause
  of the `*NumError`. -/
  ParseFloat : String → Nat → Except NumCause Nat
  /-- `time.ParseDuration(s)`: nanoseconds, or the message of the error. -/
  ParseDuration : String → Except String Int
  /-- `float32(f)` on the bits of a `float64`. -/
  toFloat32 : Nat → Nat
  /-- Whether the first type implements the second, an interface type. -/
  Implements : RType → RType → Bool

/-- The environment of the process: `os.LookupEnv`. -/
abbrev Environ := String → Option String

namespace strings

/-- Splitting a list of characters at every occurrence of `sep`. -/
def splitChars (sep : Char) : List Char → List (List Char)
  | [] => [[]]
  | c :: cs =>
    if c = sep then [] :: splitChars sep cs
    else
      match splitChars sep cs with
      | [] => [[c]]
      | p :: ps => (c :: p) :: ps

/-- `strings.Split(s, sep)` for a separator of one character: the
substrings between the separators, one more than there are separators. -/
def Split (s : String) (sep : Char) : List String :=
  (splitChars sep s.data).map String.mk

end strings

namespace strconv

/-- The digit loop of `strconv.ParseUint` in base 10: `n` is the value read
so far; a character that is no digit is a syntax error, a value that no longer
fits `bitSize` bits a range error, whichever comes first. -/
def digits (bitSize : Nat) : List Char → Nat → Except NumCause Nat
  | [], n => .ok n
  | c :: cs, n =>
    if '0' ≤ c ∧ c ≤ '9' then
      let n1 := n * 10 + (c.toNat - '0'.toNat)
      if n1 < 2 ^ bitSize then digits bitSize cs n1 else .error .outOfRange
    else .error .invalid

/-- `strconv.ParseUint(s, 10, bitSize)` up to the `Func` and `Num` of the
error. -/
def parseUintCause (s : List Char) (bitSize : Nat) : Except NumCause Nat :=
  match s with
  | [] => .error .invalid
  | _ => digits bitSize s 0

/-- `strconv.ParseUint(s, 10, bitSize)`. -/
def ParseUint (s : String) (bitSize : Nat) : Except GoError Nat :=
  match parseUintCause s.data bitSize with
  | .ok n => .ok n
  | .error c => .error (.num "ParseUint" s c)

/-- `strconv.ParseInt(s, 10, bitSize)` up to the `Func` and `Num` of the
error: an optional sign, then `ParseUint`, then the check against
`1 << (bitSize-1)`. -/
def parseIntCause (s : List Char) (bitSize : Nat) : Except NumCause Int :=
  match s with
  | [] => .error .invalid
  | c :: cs =>
    let neg := decide (c = '-')
    let body := if c = '+' ∨ c = '-' then cs else c :: cs
    match parseUintCause body bitSize with
    | .error e => .error e
    | .ok un =>
      let cutoff := 2 ^ (bitSize - 1)
      if !neg && decide (cutoff ≤ un) then .error .outOfRange
      else if neg && decide (cutoff < un) then .error .outOfRange
      else .ok (if neg then - (un : Int) else (un : Int))

/-- `strconv.ParseInt(s, 10, bitSize)`. -/
def ParseInt (s : String) (bitSize : Nat) : Except GoError Int :=
  match parseIntCause s.data bitSize with
  | .ok n => .ok n
  | .error c => .error (.num "ParseInt" s c)

/-- `strconv.Atoi(s)`: `ParseInt(s, 10, 0)` with the error's `Func` set to
`Atoi`. -/
def Atoi (rt : Runtime) (s : String) : Except GoError Int :=
  match parseIntCause s.data rt.IntSize with
  | .ok n => .ok n
  | .error c => .error (.num "Atoi" s c)

/-- `strconv.ParseBool(s)`. -/
def ParseBool (s : String) : Except GoError Bool :=
  if s = "1" ∨ s = "t" ∨ s = "T" ∨ s = "TRUE" ∨ s = "true" ∨ s = "True" then .ok true
  else if s = "0" ∨ s = "f" ∨ s = "F" ∨ s = "FALSE" ∨ s = "false" ∨ s = "False" then .ok false
  else .error (.num "ParseBool" s .invalid)

/-- `strconv.ParseFloat(s, bitSize)` through the runtime. -/
def ParseFloat (rt : Runtime) (s : String) (bitSize : Nat) : Except GoError Nat :=
  match rt.ParseFloat s bitSize with
  | .ok f => .ok f
  | .error c => .error (.num "ParseFloat" s c)

end strconv

/-- `time.ParseDuration(s)` through the runtime. -/
def ParseDuration (rt : Runtime) (s : String) : Except GoError Int :=
  match rt.ParseDuration s with
  | .ok d => .ok d
  | .error msg => .error (.duration msg)

/-! ## envee.go -/

/-- `type Envee struct { prefix string }`; the field is called `pfx` here. -/
structure Envee where
  pfx : String
deriving DecidableEq, Repr

/-- `const MaxDefinedTagParts = 2`. -/
def MaxDefinedTagParts : Nat := 2

/-- `func New() *Envee`. -/
def New : Envee := ⟨""⟩

/-- `func (e *Envee) SetPrefix(s string)`. -/
def Envee.SetPrefix (_e : Envee) (s : String) : Envee := ⟨s⟩

/-- `type field struct { name, defValue string; required bool }`. -/
structure field where
  name : String
  defValue : String
  required : Bool
deriving DecidableEq, Repr

/-- `func (f *field) isRequired() bool`. -/
def field.isRequired (f : field) : Bool :=
  f.required || decide (f.defValue = "")

/-- `func newField(tags reflect.StructTag) (*field, error)`. -/
def newField (tags : StructTag) : Except GoError field :=
  match StructTag.Lookup tags "env" with
  | none => .error (.sentinel .ErrNotProcessable)
  | some nameVal =>
    let defValue :=
      match StructTag.Lookup tags "default" with
      | some defVal => defVal
      | none => ""
    let vSplices := strings.Split nameVal ','
    let vLen := vSplices.length
    if vLen > MaxDefinedTagParts then
      .error (.wrap "%w: env:%q" [nameVal] (.sentinel .ErrUnknownTagValue))
    else if vLen = 1 then
      .ok { name := vSplices.getD 0 "", defValue := defValue, required := false }
    else if vSplices.getD 0 "" = "required" then
      .ok { name := vSplices.getD 1 "", defValue := defValue, required := true }
    else if vSplices.getD 1 "" = "required" then
      .ok { name := vSplices.getD 0 "", defValue := defValue, required := true }
    else
      .error (.wrap "%w: env:%q" [nameVal] (.sentinel .ErrUnknownTagValue))

/-- `func parseTypeValue(v string, t reflect.Type) (any, error)`. -/
def parseTypeValue (rt : Runtime) (v : String) (t : RType) : Except GoError Value :=
  if t.Name = "Duration" then
    match ParseDuration rt v with
    | .ok d => .ok ⟨timeDuration, .int d⟩
    | .error err => .error err
  else
    .error (.wrap "%w: %s:%q" [t.Name, v] (.sentinel .ErrUnsupportedType))

/-- `func parseKindValue(v string, p reflect.Kind) (any, error)`. -/
def parseKindValue (rt : Runtime) (v : String) (p : Kind) : Except GoError Value :=
  match p with
  | .Int => (strconv.Atoi rt v).map fun i => ⟨predeclared .Int, .int i⟩
  | .Uint => (strconv.ParseUint v 32).map fun i => ⟨predeclared .Uint, .uint i⟩
  | .Int8 => (strconv.ParseInt v 8).map fun i => ⟨predeclared .Int8, .int i⟩
  | .Int16 => (strconv.ParseInt v 16).map fun i => ⟨predeclared .Int16, .int i⟩
  | .Int32 => (strconv.ParseInt v 32).map fun i => ⟨predeclared .Int32, .int i⟩
  | .Int64 => (strconv.ParseInt v 64).map fun i => ⟨predeclared .Int64, .int i⟩
  | .Uint8 => (strconv.ParseUint v 8).map fun i => ⟨predeclared .Uint8, .uint i⟩
  | .Uint16 => (strconv.ParseUint v 16).map fun i => ⟨predeclared .Uint16, .uint i⟩
  | .Uint32 => (strconv.ParseUint v 32).map fun i => ⟨predeclared .Uint32, .uint i⟩
  | .Uint64 => (strconv.ParseUint v 64).map fun i => ⟨predeclared .Uint64, .uint i⟩
  | .String => .ok ⟨predeclared .String, .str v⟩
  | .Bool => (strconv.ParseBool v).map fun b => ⟨predeclared .Bool, .bool b⟩
  | .Float32 =>
    (strconv.ParseFloat rt v 32).map fun f => ⟨predeclared .Float32, .float (rt.toFloat32 f)⟩
  | .Float64 => (strconv.ParseFloat rt v 64).map fun f => ⟨predeclared .Float64, .float f⟩
  | _ => .error (.wrap "%w: %s:%q" [kindName p, v] (.sentinel .ErrUnsupportedType))

/-- How a call of `parse` ends: it returns `nil`, it returns an error, or
`reflect.Value.Set` panics. -/
inductive Status
  | ok
  | error (err : GoError)
  | panic
deriving DecidableEq, Repr

/-- A structure value seen through reflection: its fields in declaration
order. A field whose type has kind `Struct` is `nested` and carries the fields
of that structure; every other field is a `leaf` with its type and its current
value. `Name` is `typ.Field(i).Name`, `Tag` is `typ.Field(i).Tag`. -/
inductive Struct
  | nil
  | leaf (Name : String) (Tag : StructTag) (typ : RType) (value : Value) (rest : Struct)
  | nested (Name : String) (Tag : StructTag) (inner : Struct) (rest : Struct)
deriving DecidableEq, Repr

/-- How one iteration of the loop of `parse` over a leaf ends: the field was
set and the loop goes on, `parse` returned an error, or `Set` panicked. -/
inductive Step
  | assigned (v : Value)
  | returned (err : GoError)
  | panicked
deriving DecidableEq, Repr

/-- Whether the iteration ended in an assignment. -/
def Step.isAssigned : Step → Bool
  | .assigned _ => true
  | _ => false

/-- What a call of `parse` leaves behind: the structure as it is after the
call, the keys passed to `os.LookupEnv` in call order, and how it ended. -/
structure Outcome where
  target : Struct
  lookups : List String
  status : Status
deriving DecidableEq, Repr

/-- `Type.AssignableTo` between the type of a converted value (always a
defined type) and the type of a field: identical types, or an interface the
value's type implements. -/
def AssignableTo (rt : Runtime) (v t : RType) : Bool :=
  decide (v = t) || (decide (t.Kind = .Interface) && rt.Implements v t)

/-- `val.Field(i).Set(reflect.ValueOf(x))`: panics unless the type of `x` is
assignable to the type of the field. -/
def Set (rt : Runtime) (t : RType) (x : Value) : Step :=
  if AssignableTo rt x.typ t then .assigned x else .panicked

/-- Lines 49-79 of `parse`: the body of the loop for a field whose kind is not
`Struct`, under the accumulated nested prefix `pre`. The first component holds
the key passed to `os.LookupEnv`, if the call was reached. -/
def parseLeaf (rt : Runtime) (e : Envee) (env : Environ) (pre : String)
    (tag : StructTag) (t : RType) : List String × Step :=
  match newField tag with
  | .error err => ([], .returned err)
  | .ok f =>
    let key := e.pfx ++ pre ++ f.name
    let found := env key
    if found.isNone && f.isRequired then
      ([key], .returned (.wrap "%w: %q" [f.name] (.sentinel .ErrMissingRequired)))
    else
      let envVal := if found.isNone then f.defValue else found.getD ""
      match parseTypeValue rt envVal t with
      | .ok typed => ([key], Set rt t typed)
      | .error err =>
        if !err.Is .ErrUnsupportedType then
          ([key], .returned (.wrap "%s: %w" [f.name] err))
        else
          match parseKindValue rt envVal t.Kind with
          | .error err => ([key], .returned (.wrap "%s: %w" [f.name] err))
          | .ok kinded => ([key], Set rt t kinded)

/-- `func (e *Envee) parse(o any, prefix string) error`, the loop over the
fields as a recursion on the remaining fields. -/
def parse (rt : Runtime) (e : Envee) (env : Environ) : Struct → String → Outcome
  | .nil, _ => ⟨.nil, [], .ok⟩
  | .nested name tag inner rest, pre =>
    let p := pre ++ StructTag.Get tag "prefix"
    let r := parse rt e env inner p
    match r.status with
    | .ok =>
      let r2 := parse rt e env rest pre
      ⟨.nested name tag r.target r2.target, r.lookups ++ r2.lookups, r2.status⟩
    | .error err =>
      ⟨.nested name tag r.target rest, r.lookups,
        .error (.wrap "failed to parse sub struct %q: %w" [name] err)⟩
    | .panic => ⟨.nested name tag r.target rest, r.lookups, .panic⟩
  | .leaf name tag t v rest, pre =>
    match parseLeaf rt e env pre tag t with
    | (ks, .assigned x) =>
      let r := parse rt e env rest pre
      ⟨.leaf name tag t x r.target, ks ++ r.lookups, r.status⟩
    | (ks, .returned err) => ⟨.leaf name tag t v rest, ks, .error err⟩
    | (ks, .panicked) => ⟨.leaf name tag t v rest, ks, .panic⟩

/-- `func (e *Envee) Parse(o any) error`. -/
def Envee.Parse (rt : Runtime) (e : Envee) (env : Environ) (o : Struct) : Outcome :=
  parse rt e env o ""

/-! ## The leaves of a structure, in declaration order -/

/-- A leaf field as seen from the root of the structure: the nested fields
that enclose it (`Name` and `Tag` of each, outermost first) and the leaf's own
name, tag, type and current value. -/
structure LeafView where
  groups : List (String × StructTag)
  Name : String
  Tag : StructTag
  typ : RType
  value : Value
deriving DecidableEq, Repr

/-- The same leaf seen from one nested field further out. -/
def LeafView.under (g : String × StructTag) (l : LeafView) : LeafView :=
  { l with groups := g :: l.groups }

/-- The same leaf holding another value. -/
def LeafView.withValue (l : LeafView) (x : Value) : LeafView :=
  { l with value := x }

/-- The leaves of a structure depth-first, in declaration order. -/
def Struct.leaves : Struct → List LeafView
  | .nil => []
  | .leaf n tag t v rest => ⟨[], n, tag, t, v⟩ :: rest.leaves
  | .nested n tag inner rest => inner.leaves.map (LeafView.under (n, tag)) ++ rest.leaves

/-- Concatenation of a list of strings, with nothing in between. -/
def concat : List String → String
  | [] => ""
  | a :: rest => a ++ concat rest

/-- The `prefix` fragments of the nested fields enclosing a leaf, outermost
first, concatenated; a nested field without `prefix` in its tag contributes
the empty string. -/
def LeafView.nestedPrefix (l : LeafView) : String :=
  concat (l.groups.map fun g => StructTag.Get g.2 "prefix")

/-- An error of a leaf as the enclosing nested fields hand it on: one
`failed to parse sub struct` layer for each, the outermost outside. -/
def wrapGroups : List (String × StructTag) → GoError → GoError
  | [], err => err
  | g :: gs, err => .wrap "failed to parse sub struct %q: %w" [g.1] (wrapGroups gs err)

/-- The loop body of `parse` run on a leaf, under `pre` followed by the
fragments of the nested fields that enclose the leaf. -/
def LeafView.step (rt : Runtime) (e : Envee) (env : Environ) (pre : String)
    (l : LeafView) : List String × Step :=
  parseLeaf rt e env (pre ++ l.nestedPrefix) l.Tag l.typ

/-- The leaf after its iteration of the loop: holding the assigned value, or
untouched when nothing was assigned. -/
def LeafView.bound (rt : Runtime) (e : Envee) (env : Environ) (pre : String)
    (l : LeafView) : LeafView :=
  match (l.step rt e env pre).2 with
  | .assigned x => l.withValue x
  | _ => l

/-- The field walk over the flat list of leaves: stop at the first leaf whose
iteration does not end in an assignment. -/
def walk (rt : Runtime) (e : Envee) (env : Environ) (pre : String) :
    List LeafView → List LeafView × List String × Status
  | [] => ([], [], .ok)
  | l :: ls =>
    match l.step rt e env pre with
    | (ks, .assigned x) =>
      let r := walk rt e env pre ls
      (l.withValue x :: r.1, ks ++ r.2.1, r.2.2)
    | (ks, .returned err) => (l :: ls, ks, .error (wrapGroups l.groups err))
    | (ks, .panicked) => (l :: ls, ks, .panic)

/-- The status a nested field hands on to its caller. -/
def liftStatus (name : String) : Status → Status
  | .ok => .ok
  | .error err => .error (.wrap "failed to parse sub struct %q: %w" [name] err)
  | .panic => .panic

/-- The string that is converted for a field: the value of the variable when
it is present in the environment, the default otherwise. -/
def resolved (env : Environ) (key : String) (defValue : String) : String :=
  match env key with
  | some v => v
  | none => defValue

/-- Lines 64-79 of `parse` without the assignment and without the field name
added to the error: the type-specific conversion, and the conversion by kind
when the former reports an unsupported type. -/
def convertValue (rt : Runtime) (t : RType) (s : String) : Except GoError Value :=
  match parseTypeValue rt s t with
  | .ok typed => .ok typed
  | .error err =>
    if err.Is .ErrUnsupportedType then parseKindValue rt s t.Kind else .error err

/-- A runtime to evaluate examples on: 64-bit `int`, a duration parser that
knows whole hours and seconds written with one digit, no floating point
parser, and no interface implemented. -/
def rt64 : Runtime where
  IntSize := 64
  ParseFloat := fun _ _ => .error .invalid
  ParseDuration := fun s =>
    match s.data with
    | [d, u] =>
      if '0' ≤ d ∧ d ≤ '9' ∧ u = 's' then .ok ((d.toNat - '0'.toNat : Nat) * 1000000000)
      else if '0' ≤ d ∧ d ≤ '9' ∧ u = 'h' then .ok ((d.toNat - '0'.toNat : Nat) * 3600000000000)
      else .error ("time: invalid duration " ++ s)
    | _ => .error ("time: invalid duration " ++ s)
  toFloat32 := id
  Implements := fun _ _ => false

/-- `Parse` gets as far as the leaf number `k` (counted from 0): the iteration
over every leaf before it ends in an assignment. -/
def Reaches (rt : Runtime) (e : Envee) (env : Environ) (o : Struct) (k : Nat) : Bool :=
  (o.leaves.take k).all fun l => (parseLeaf rt e env l.nestedPrefix l.Tag l.typ).2.isAssigned

/-- The leaf `l'` is the leaf `l` after it was bound: the same field, holding
the conversion to its type of its resolved string, the variable being named
by the global prefix, the nested prefixes and the field's name. -/
def IsBound (rt : Runtime) (e : Envee) (env : Environ) (l l' : LeafView) : Prop :=
  l'.groups = l.groups ∧ l'.Name = l.Name ∧ l'.Tag = l.Tag ∧ l'.typ = l.typ ∧
    ∃ f, newField l.Tag = .ok f ∧
      convertValue rt l.typ
        (resolved env (e.pfx ++ l.nestedPrefix ++ f.name) f.defValue) = .ok l'.value

/-! ## Structures and environments of the package's tests -/

/-- The zero value of a predeclared type. -/
def zeroOf (k : Kind) : Value :=
  match k with
  | .String => ⟨predeclared k, .str ""⟩
  | .Bool => ⟨predeclared k, .bool false⟩
  | .Uint | .Uint8 | .Uint16 | .Uint32 | .Uint64 => ⟨predeclared k, .uint 0⟩
  | .Int | .Int8 | .Int16 | .Int32 | .Int64 => ⟨predeclared k, .int 0⟩
  | _ => ⟨predeclared k, .zero⟩

/-- `Name string (env:"NAME,required")`, `Age uint32 (default:"42" env:"AGE")`. -/
def testConfig : Struct :=
  .leaf "Name" [("env", "NAME,required")] (predeclared .String) (zeroOf .String)
    (.leaf "Age" [("default", "42"), ("env", "AGE")] (predeclared .Uint32) (zeroOf .Uint32) .nil)

/-- `Host string`, `Port int` and `Timeout time.Duration`, each with a default. -/
def testConfigMongo : Struct :=
  .leaf "Host" [("default", "localhost"), ("env", "HOST")] (predeclared .String) (zeroOf .String)
    (.leaf "Port" [("default", "27017"), ("env", "PORT")] (predeclared .Int) (zeroOf .Int)
      (.leaf "Timeout" [("default", "3s"), ("env", "TIMEOUT")] timeDuration
        ⟨timeDuration, .int 0⟩ .nil))

/-- `Service string`, the nested `Mongo` with `prefix:"MONGO_"`, and a
`Period time.Duration` declared after the nested field. -/
def testConfigDuration : Struct :=
  .leaf "Service" [("default", "default-service"), ("env", "SERVICE")] (predeclared .String)
    (zeroOf .String)
    (.nested "Mongo" [("prefix", "MONGO_")] testConfigMongo
      (.leaf "Period" [("env", "SHUTDOWN_PERIOD")] timeDuration ⟨timeDuration, .int 0⟩ .nil))

/-- The environment after `os.Setenv(key, value)`. -/
def Setenv (env : Environ) (key value : String) : Environ :=
  fun k => if k = key then some value else env k

/-- An environment given by its list of `NAME=value` entries. -/
def environ (vars : List (String × String)) : Environ :=
  fun key => (vars.find? fun kv => kv.1 = key).map fun kv => kv.2

/-- The primitive kinds `parseKindValue` has a case for: `int`, `int8` to
`int64`, `uint`, `uint8` to `uint64`, `string`, `bool`, `float32`, `float64`. -/
def supportedKind : Kind → Bool
  | .Int | .Int8 | .Int16 | .Int32 | .Int64 => true
  | .Uint | .Uint8 | .Uint16 | .Uint32 | .Uint64 => true
  | .String | .Bool | .Float32 | .Float64 => true
  | _ => false

/-- A user-defined integer type, `type MyInt int` in package `main`. -/
def myInt : RType := ⟨"main", "MyInt", .Int⟩

/-- A user-defined type named `Duration` that is not `time.Duration`,
`type Duration string` in package `main`. -/
def myDuration : RType := ⟨"main", "Duration", .String⟩

/-- The type `complex128`. -/
def complex128 : RType := predeclared .Complex128

/-- The structure with the value of every leaf blanked out: what is left are
the fields, their tags and their types. -/
def Struct.blank : Struct → Struct
  | .nil => .nil
  | .leaf n tag t _ rest => .leaf n tag t ⟨t, .zero⟩ rest.blank
  | .nested n tag inner rest => .nested n tag inner.blank rest.blank

/-! ## Decimal numerals -/

/-- A non-empty string of decimal digits. -/
def isDigits (cs : List Char) : Bool :=
  !cs.isEmpty && cs.all fun c => decide ('0' ≤ c ∧ c ≤ '9')

/-- The number a string of decimal digits stands for, read from the left
starting at `n`. -/
def decimalValue : List Char → Nat → Nat
  | [], n => n
  | c :: cs, n => decimalValue cs (n * 10 + (c.toNat - '0'.toNat))

/-- A base-10 numeral with an optional sign: `+` or `-`, then digits. -/
def isNumeral (cs : List Char) : Bool :=
  match cs with
  | [] => false
  | c :: rest => if c = '+' ∨ c = '-' then isDigits rest else isDigits (c :: rest)

/-- The integer a signed numeral stands for. -/
def numeralValue (cs : List Char) : Int :=
  match cs with
  | [] => 0
  | c :: rest =>
    if c = '-' then - (decimalValue rest 0 : Int)
    else if c = '+' then (decimalValue rest 0 : Int)
    else (decimalValue (c :: rest) 0 : Int)

/-- The width in bits of the Go type of an integer kind. -/
def typeWidth (rt : Runtime) : Kind → Nat
  | .Int | .Uint => rt.IntSize
  | .Int8 | .Uint8 => 8
  | .Int16 | .Uint16 => 16
  | .Int32 | .Uint32 => 32
  | .Int64 | .Uint64 => 64
  | _ => 0

namespace strconv

/-- `strconv.FormatUint(n, 10)`: the decimal numeral of `n`. -/
def FormatUint (n : Nat) : String := String.mk (Nat.toDigits 10 n)

/-- `strconv.FormatInt(v, 10)`: the decimal numeral of `v`, with `-` in front
of a negative number. -/
def FormatInt (v : Int) : String :=
  if v < 0 then String.mk ('-' :: Nat.toDigits 10 v.natAbs)
  else String.mk (Nat.toDigits 10 v.natAbs)

/-- `strconv.FormatBool(b)`. -/
def FormatBool (b : Bool) : String := if b then "true" else "false"

end strconv

/-! ## Error messages -/

/-- The message of each sentinel, the argument of its `errors.New`. -/
def Sentinel.message : Sentinel → String
  | .ErrMissingRequired => "missing required variable"
  | .ErrNotProcessable => "not processable, missing required tags"
  | .ErrUnknownTagValue => "unknown tag value"
  | .ErrUnsupportedType => "unsupported variable type"

/-- The messages of `strconv.ErrSyntax` and `strconv.ErrRange`. -/
def NumCause.message : NumCause → String
  | .invalid => "invalid syntax"
  | .outOfRange => "value out of range"

/-- The text `fmt.Errorf` makes of a format with the verbs `%w`, `%s` and
`%q`: `w` is the message of the `%w` operand, `args` are the other operands in
order, and `quote` is `strconv.Quote`, which `%q` applies to its operand. -/
def Errorf (quote : String → String) : List Char → List String → List Char → List Char
  | [], _, _ => []
  | '%' :: 'w' :: rest, args, w => w ++ Errorf quote rest args w
  | '%' :: 's' :: rest, a :: args, w => a.data ++ Errorf quote rest args w
  | '%' :: 'q' :: rest, a :: args, w => (quote a).data ++ Errorf quote rest args w
  | c :: rest, args, w => c :: Errorf quote rest args w

/-- The characters of `err.Error()`, given `strconv.Quote`. -/
def GoError.chars (quote : String → String) : GoError → List Char
  | .sentinel s => s.message.data
  | .num Func Num cause =>
    "strconv.".data ++ Func.data ++ ": parsing ".data ++ (quote Num).data ++ ": ".data ++
      cause.message.data
  | .duration msg => msg.data
  | .wrap format args inner => Errorf quote format.data args (inner.chars quote)

/-- The message `err.Error()`, given `strconv.Quote`. -/
def GoError.Error (quote : String → String) (err : GoError) : String :=
  String.mk (err.chars quote)

/-- `strings.Contains(s, substr)`. -/
def strings.Contains (s substr : String) : Prop :=
  substr.data <:+: s.data

/-- `strconv.Quote` on a string of printable characters without `"` and `\`:
the string between double quotes. -/
def plainQuote (s : String) : String := "\"" ++ s ++ "\""

/-! ## The walk over the fields, leaf by leaf -/

theorem concat_under (g : String × StructTag) (l : LeafView) :
    (l.under g).nestedPrefix = StructTag.Get g.2 "prefix" ++ l.nestedPrefix := by
  simp [LeafView.under, LeafView.nestedPrefix, concat]

theorem step_under (rt : Runtime) (e : Envee) (env : Environ) (pre : String)
    (g : String × StructTag) (l : LeafView) :
    (l.under g).step rt e env pre = l.step rt e env (pre ++ StructTag.Get g.2 "prefix") := by
  unfold LeafView.step
  rw [concat_under, String.append_assoc]
  rfl

theorem walk_append (rt : Runtime) (e : Envee) (env : Environ) (pre : String)
    (a b : List LeafView) :
    walk rt e env pre (a ++ b) =
      match (walk rt e env pre a).2.2 with
      | .ok =>
        ((walk rt e env pre a).1 ++ (walk rt e env pre b).1,
          (walk rt e env pre a).2.1 ++ (walk rt e env pre b).2.1, (walk rt e env pre b).2.2)
      | st => ((walk rt e env pre a).1 ++ b, (walk rt e env pre a).2.1, st) := by
  induction a with
  | nil => simp [walk]
  | cons l ls ih =>
    simp only [List.cons_append, walk]
    rcases h : l.step rt e env pre with ⟨ks, st⟩
    cases st with
    | assigned x =>
      simp only [List.append_eq]
      rw [ih]
      cases h2 : (walk rt e env pre ls).2.2 <;> simp
    | returned err => simp
    | panicked => simp

theorem walk_under (rt : Runtime) (e : Envee) (env : Environ) (pre : String)
    (g : String × StructTag) (ls : List LeafView) :
    walk rt e env pre (ls.map (LeafView.under g)) =
      (((walk rt e env (pre ++ StructTag.Get g.2 "prefix") ls).1).map (LeafView.under g),
        (walk rt e env (pre ++ StructTag.Get g.2 "prefix") ls).2.1,
        liftStatus g.1 (walk rt e env (pre ++ StructTag.Get g.2 "prefix") ls).2.2) := by
  induction ls with
  | nil => simp [walk, liftStatus]
  | cons l ls ih =>
    simp only [List.map_cons, walk, step_under]
    rcases h : l.step rt e env (pre ++ StructTag.Get g.2 "prefix") with ⟨ks, st⟩
    cases st with
    | assigned x => simp [ih, LeafView.under, LeafView.withValue]
    | returned err => simp [liftStatus, wrapGroups, LeafView.under]
    | panicked => simp [liftStatus]

theorem parse_walk (rt : Runtime) (e : Envee) (env : Environ) (s : Struct) :
    ∀ pre : String, walk rt e env pre s.leaves =
      ((parse rt e env s pre).target.leaves, (parse rt e env s pre).lookups,
        (parse rt e env s pre).status) := by
  induction s with
  | nil => intro pre; simp [Struct.leaves, walk, parse]
  | leaf n tag t v rest ih =>
    intro pre
    simp only [Struct.leaves, walk, parse, LeafView.step, LeafView.nestedPrefix, List.map_nil,
      concat, String.append_empty]
    rcases h : parseLeaf rt e env pre tag t with ⟨ks, st⟩
    cases st with
    | assigned x => simp [ih pre, Struct.leaves, LeafView.withValue]
    | returned err => simp [Struct.leaves, wrapGroups]
    | panicked => simp [Struct.leaves]
  | nested n tag inner rest ihi ihr =>
    intro pre
    simp only [Struct.leaves, walk_append, walk_under, parse, ihi, ihr]
    cases h : (parse rt e env inner (pre ++ StructTag.Get tag "prefix")).status <;>
      simp [liftStatus, Struct.leaves]

theorem resolved_eq (env : Environ) (key d : String) :
    (if (env key).isNone then d else (env key).getD "") = resolved env key d := by
  unfold resolved
  cases env key <;> simp

/-- The loop body in one formula, for a tag `newField` accepts. -/
theorem parseLeaf_ok (rt : Runtime) (e : Envee) (env : Environ) (pre : String)
    (tag : StructTag) (t : RType) (f : field) (hf : newField tag = .ok f) :
    parseLeaf rt e env pre tag t =
      ([e.pfx ++ pre ++ f.name],
        if (env (e.pfx ++ pre ++ f.name)).isNone && f.isRequired then
          .returned (.wrap "%w: %q" [f.name] (.sentinel .ErrMissingRequired))
        else
          match convertValue rt t (resolved env (e.pfx ++ pre ++ f.name) f.defValue) with
          | .ok x => Set rt t x
          | .error err => .returned (.wrap "%s: %w" [f.name] err)) := by
  unfold parseLeaf
  simp only [hf, resolved_eq]
  by_cases hreq : ((env (e.pfx ++ pre ++ f.name)).isNone && f.isRequired) = true
  · simp [hreq]
  · simp only [hreq, Bool.false_eq_true, if_false]
    unfold convertValue
    cases h1 : parseTypeValue rt (resolved env (e.pfx ++ pre ++ f.name) f.defValue) t with
    | ok typed => simp
    | error err =>
      by_cases his : err.Is .ErrUnsupportedType = true
      · simp only [his, Bool.not_true, Bool.false_eq_true, if_false, if_true]
        cases h2 : parseKindValue rt (resolved env (e.pfx ++ pre ++ f.name) f.defValue) t.Kind <;> simp
      · simp [his]

theorem parseLeaf_error (rt : Runtime) (e : Envee) (env : Environ) (pre : String)
    (tag : StructTag) (t : RType) (err : GoError) (hf : newField tag = .error err) :
    parseLeaf rt e env pre tag t = ([], .returned err) := by
  unfold parseLeaf
  simp [hf]

theorem step_top (rt : Runtime) (e : Envee) (env : Environ) (l : LeafView) :
    l.step rt e env "" = parseLeaf rt e env l.nestedPrefix l.Tag l.typ := by
  unfold LeafView.step
  rw [String.empty_append]

theorem walk_take (rt : Runtime) (e : Envee) (env : Environ) (pre : String) :
    ∀ (ls : List LeafView) (k : Nat),
      (∀ l ∈ ls.take k, (l.step rt e env pre).2.isAssigned = true) →
      walk rt e env pre ls =
        ((ls.take k).map (LeafView.bound rt e env pre) ++ (walk rt e env pre (ls.drop k)).1,
          (ls.take k).flatMap (fun l => (l.step rt e env pre).1) ++
            (walk rt e env pre (ls.drop k)).2.1,
          (walk rt e env pre (ls.drop k)).2.2) := by
  intro ls
  induction ls with
  | nil => intro k _; simp
  | cons l ls ih =>
    intro k hk
    cases k with
    | zero => simp
    | succ k =>
      have hl : (l.step rt e env pre).2.isAssigned = true := hk l (by simp)
      have hrest : ∀ l' ∈ ls.take k, (l'.step rt e env pre).2.isAssigned = true :=
        fun l' h' => hk l' (by simp [h'])
      rcases h : l.step rt e env pre with ⟨ks, st⟩
      rw [h] at hl
      cases st with
      | assigned x =>
        simp only [List.take_succ_cons, List.drop_succ_cons, List.map_cons, List.flatMap_cons,
          walk, h, List.cons_append, List.append_assoc]
        rw [ih k hrest]
        simp [LeafView.bound, h]
      | returned err => simp [Step.isAssigned] at hl
      | panicked => simp [Step.isAssigned] at hl

theorem walk_ok (rt : Runtime) (e : Envee) (env : Environ) (pre : String) :
    ∀ ls : List LeafView, (walk rt e env pre ls).2.2 = .ok →
      ∀ l ∈ ls, (l.step rt e env pre).2.isAssigned = true := by
  intro ls
  induction ls with
  | nil => intro _ l hl; simp at hl
  | cons a ls ih =>
    intro h l hl
    rcases ha : a.step rt e env pre with ⟨ks, st⟩
    cases st with
    | assigned x =>
      simp only [walk, ha] at h
      rcases List.mem_cons.mp hl with rfl | hmem
      · simp [ha, Step.isAssigned]
      · exact ih h l hmem
    | returned err => simp [walk, ha] at h
    | panicked => simp [walk, ha] at h

theorem walk_error (rt : Runtime) (e : Envee) (env : Environ) (pre : String) :
    ∀ (ls : List LeafView) (E : GoError), (walk rt e env pre ls).2.2 = .error E →
      ∃ k l err, ls[k]? = some l ∧
        (∀ l' ∈ ls.take k, (l'.step rt e env pre).2.isAssigned = true) ∧
        (l.step rt e env pre).2 = .returned err ∧ E = wrapGroups l.groups err := by
  intro ls
  induction ls with
  | nil => intro E h; simp [walk] at h
  | cons a ls ih =>
    intro E h
    rcases ha : a.step rt e env pre with ⟨ks, st⟩
    cases st with
    | assigned x =>
      simp only [walk, ha] at h
      obtain ⟨k, l, err, hk, hbefore, hstep, hE⟩ := ih E h
      refine ⟨k + 1, l, err, by simpa using hk, ?_, hstep, hE⟩
      intro l' hl'
      rw [List.take_succ_cons] at hl'
      rcases List.mem_cons.mp hl' with rfl | hmem
      · simp [ha, Step.isAssigned]
      · exact hbefore l' hmem
    | returned err =>
      simp only [walk, ha] at h
      refine ⟨0, a, err, by simp, by simp, by simp [ha], ?_⟩
      injection h with h
      exact h.symm
    | panicked => simp [walk, ha] at h

theorem walk_panic (rt : Runtime) (e : Envee) (env : Environ) (pre : String) :
    ∀ (ls : List LeafView), (walk rt e env pre ls).2.2 = .panic →
      ∃ k l, ls[k]? = some l ∧
        (∀ l' ∈ ls.take k, (l'.step rt e env pre).2.isAssigned = true) ∧
        (l.step rt e env pre).2 = .panicked := by
  intro ls
  induction ls with
  | nil => intro h; simp [walk] at h
  | cons a ls ih =>
    intro h
    rcases ha : a.step rt e env pre with ⟨ks, st⟩
    cases st with
    | assigned x =>
      simp only [walk, ha] at h
      obtain ⟨k, l, hk, hbefore, hstep⟩ := ih h
      refine ⟨k + 1, l, by simpa using hk, ?_, hstep⟩
      intro l' hl'
      rw [List.take_succ_cons] at hl'
      rcases List.mem_cons.mp hl' with rfl | hmem
      · simp [ha, Step.isAssigned]
      · exact hbefore l' hmem
    | returned err => simp [walk, ha] at h
    | panicked => exact ⟨0, a, by simp, by simp, by simp [ha]⟩

theorem Parse_walk (rt : Runtime) (e : Envee) (env : Environ) (o : Struct) :
    walk rt e env "" o.leaves =
      ((e.Parse rt env o).target.leaves, (e.Parse rt env o).lookups, (e.Parse rt env o).status) :=
  parse_walk rt e env o ""

theorem reaches_iff (rt : Runtime) (e : Envee) (env : Environ) (o : Struct) (k : Nat) :
    Reaches rt e env o k = true ↔
      ∀ l ∈ o.leaves.take k, (l.step rt e env "").2.isAssigned = true := by
  simp [Reaches, List.all_eq_true, step_top]

theorem assigned_isBound (rt : Runtime) (e : Envee) (env : Environ) (l : LeafView)
    (h : (l.step rt e env "").2.isAssigned = true) :
    IsBound rt e env l (l.bound rt e env "") := by
  rw [step_top] at h
  unfold LeafView.bound
  rw [step_top]
  cases hf : newField l.Tag with
  | error err => rw [parseLeaf_error rt e env _ _ _ err hf] at h; simp [Step.isAssigned] at h
  | ok f =>
    rw [parseLeaf_ok rt e env _ _ _ f hf] at h ⊢
    simp only at h ⊢
    split at h
    · simp [Step.isAssigned] at h
    · rename_i hreq
      simp only [hreq, if_false]
      cases hc : convertValue rt l.typ (resolved env (e.pfx ++ l.nestedPrefix ++ f.name) f.defValue) with
      | error err => rw [hc] at h; simp [Step.isAssigned] at h
      | ok x =>
        rw [hc] at h
        simp only at h ⊢
        unfold Set at h ⊢
        split at h
        · rename_i ha
          simp only [ha, if_true]
          exact ⟨rfl, rfl, rfl, rfl, f, hf, by simpa [LeafView.withValue] using hc⟩
        · simp [Step.isAssigned] at h

theorem forall₂_bound (rt : Runtime) (e : Envee) (env : Environ) :
    ∀ ls : List LeafView, (∀ l ∈ ls, (l.step rt e env "").2.isAssigned = true) →
      List.Forall₂ (IsBound rt e env) ls (ls.map (LeafView.bound rt e env "")) := by
  intro ls
  induction ls with
  | nil => intro _; exact List.Forall₂.nil
  | cons a ls ih =>
    intro h
    exact List.Forall₂.cons (assigned_isBound rt e env a (h a (by simp)))
      (ih fun l hl => h l (by simp [hl]))

/-- Where `Parse` stands when it has reached leaf `k`. -/
theorem Parse_reach (rt : Runtime) (e : Envee) (env : Environ) (o : Struct) (k : Nat)
    (l : LeafView) (hk : o.leaves[k]? = some l) (hr : Reaches rt e env o k = true) :
    (e.Parse rt env o).target.leaves =
        (o.leaves.take k).map (LeafView.bound rt e env "") ++
          (walk rt e env "" (l :: o.leaves.drop (k + 1))).1 ∧
      (e.Parse rt env o).lookups =
        (o.leaves.take k).flatMap (fun l => (l.step rt e env "").1) ++
          (walk rt e env "" (l :: o.leaves.drop (k + 1))).2.1 ∧
      (e.Parse rt env o).status = (walk rt e env "" (l :: o.leaves.drop (k + 1))).2.2 := by
  have hw := walk_take rt e env "" o.leaves k ((reaches_iff rt e env o k).mp hr)
  rw [Parse_walk] at hw
  have hd : o.leaves.drop k = l :: o.leaves.drop (k + 1) := by
    have hlt : k < o.leaves.length := by
      by_contra hcon
      rw [List.getElem?_eq_none (by omega)] at hk
      cases hk
    rw [List.drop_eq_getElem_cons hlt]
    rw [List.getElem?_eq_getElem hlt] at hk
    injection hk with hk
    rw [hk]
  rw [hd] at hw
  simp only [Prod.mk.injEq] at hw
  exact hw

theorem lt_of_getElem? {α : Type} (ls : List α) (k : Nat) (l : α) (hk : ls[k]? = some l) :
    k < ls.length := by
  by_contra hcon
  rw [List.getElem?_eq_none (by omega)] at hk
  cases hk

theorem drop_of_getElem? {α : Type} (ls : List α) (k : Nat) (l : α) (hk : ls[k]? = some l) :
    ls.drop k = l :: ls.drop (k + 1) := by
  have hlt := lt_of_getElem? ls k l hk
  rw [List.drop_eq_getElem_cons hlt]
  rw [List.getElem?_eq_getElem hlt] at hk
  injection hk with hk
  rw [hk]

/-- The frame of a walk that stopped at leaf `k`: the leaves before it are
bound, the others are as they were. -/
theorem frame_of_stop (rt : Runtime) (e : Envee) (env : Environ) (ls T : List LeafView)
    (k : Nat) (hlen : k ≤ ls.length)
    (hb : ∀ l ∈ ls.take k, (l.step rt e env "").2.isAssigned = true)
    (hT : T = (ls.take k).map (LeafView.bound rt e env "") ++ ls.drop k) :
    List.Forall₂ (IsBound rt e env) (ls.take k) (T.take k) ∧ T.drop k = ls.drop k := by
  have hl : ((ls.take k).map (LeafView.bound rt e env "")).length = k := by
    simp [List.length_take, hlen]
  have hF := forall₂_bound rt e env _ hb
  generalize (ls.take k).map (LeafView.bound rt e env "") = A at hT hl hF
  subst hT
  constructor
  · have h1 : A.take k = A := List.take_of_length_le (by omega)
    rw [List.take_append_of_le_length (by omega), h1]
    exact hF
  · have h2 : A.drop k = [] := List.drop_of_length_le (by omega)
    rw [List.drop_append_of_le_length (by omega), h2]
    simp

/-- `Parse` reaches a leaf whose iteration returns an error. -/
theorem Parse_stop (rt : Runtime) (e : Envee) (env : Environ) (o : Struct) (k : Nat)
    (l : LeafView) (err : GoError) (hk : o.leaves[k]? = some l)
    (hr : Reaches rt e env o k = true)
    (hs : (parseLeaf rt e env l.nestedPrefix l.Tag l.typ).2 = .returned err) :
    (e.Parse rt env o).status = .error (wrapGroups l.groups err) ∧
      List.Forall₂ (IsBound rt e env) (o.leaves.take k) ((e.Parse rt env o).target.leaves.take k) ∧
      (e.Parse rt env o).target.leaves.drop k = o.leaves.drop k := by
  obtain ⟨ht, _, hst⟩ := Parse_reach rt e env o k l hk hr
  rcases hp : parseLeaf rt e env l.nestedPrefix l.Tag l.typ with ⟨ks, st⟩
  rw [hp] at hs
  simp only at hs
  subst hs
  simp only [walk, step_top, hp] at ht hst
  refine ⟨hst, ?_⟩
  rw [← drop_of_getElem? _ _ _ hk] at ht
  exact frame_of_stop rt e env o.leaves _ k (le_of_lt (lt_of_getElem? _ _ _ hk))
    ((reaches_iff rt e env o k).mp hr) ht

/-- `Parse` reaches a leaf whose iteration ends in an assignment: the leaf
holds the assigned value whatever happens afterwards. -/
theorem Parse_pass (rt : Runtime) (e : Envee) (env : Environ) (o : Struct) (k : Nat)
    (l : LeafView) (x : Value) (hk : o.leaves[k]? = some l)
    (hr : Reaches rt e env o k = true)
    (hs : (parseLeaf rt e env l.nestedPrefix l.Tag l.typ).2 = .assigned x) :
    (e.Parse rt env o).target.leaves[k]? = some (l.withValue x) := by
  obtain ⟨ht, _, _⟩ := Parse_reach rt e env o k l hk hr
  rcases hp : parseLeaf rt e env l.nestedPrefix l.Tag l.typ with ⟨ks, st⟩
  rw [hp] at hs
  simp only at hs
  subst hs
  simp only [walk, step_top, hp] at ht
  have hlen : ((o.leaves.take k).map (LeafView.bound rt e env "")).length = k := by
    simp [List.length_take, le_of_lt (lt_of_getElem? _ _ _ hk)]
  rw [ht, List.getElem?_append_right (by omega), hlen]
  simp

/-- `Parse` returns `nil` exactly when every leaf is assigned, and then every
leaf is bound. -/
theorem Parse_ok (rt : Runtime) (e : Envee) (env : Environ) (o : Struct)
    (h : (e.Parse rt env o).status = .ok) :
    (∀ l ∈ o.leaves, (l.step rt e env "").2.isAssigned = true) ∧
      (e.Parse rt env o).target.leaves = o.leaves.map (LeafView.bound rt e env "") ∧
      (e.Parse rt env o).lookups = o.leaves.flatMap (fun l => (l.step rt e env "").1) := by
  have hw := Parse_walk rt e env o
  have hall := walk_ok rt e env "" o.leaves (by rw [hw]; exact h)
  refine ⟨hall, ?_⟩
  have ht := walk_take rt e env "" o.leaves o.leaves.length (by simpa using hall)
  rw [hw] at ht
  simp only [List.take_length, List.drop_length, walk, List.append_nil, Prod.mk.injEq] at ht
  exact ⟨ht.1, ht.2.1⟩

theorem parseLeaf_fst (rt : Runtime) (e : Envee) (env : Environ) (pre : String)
    (tag : StructTag) (t : RType) :
    (parseLeaf rt e env pre tag t).1 =
      match newField tag with
      | .ok f => [e.pfx ++ pre ++ f.name]
      | .error _ => [] := by
  cases hf : newField tag with
  | ok f => rw [parseLeaf_ok rt e env pre tag t f hf]
  | error err => rw [parseLeaf_error rt e env pre tag t err hf]

theorem walk_lookups (rt : Runtime) (e : Envee) (env : Environ) (pre : String) :
    ∀ (ls : List LeafView) (j : Nat) (key : String),
      (walk rt e env pre ls).2.1[j]? = some key →
      ∃ l f, ls[j]? = some l ∧ newField l.Tag = .ok f ∧
        key = e.pfx ++ (pre ++ l.nestedPrefix) ++ f.name := by
  intro ls
  induction ls with
  | nil => intro j key h; simp [walk] at h
  | cons a ls ih =>
    intro j key h
    have hfst := parseLeaf_fst rt e env (pre ++ a.nestedPrefix) a.Tag a.typ
    rcases ha : a.step rt e env pre with ⟨ks, st⟩
    have hks : ks = (parseLeaf rt e env (pre ++ a.nestedPrefix) a.Tag a.typ).1 := by
      unfold LeafView.step at ha; rw [ha]
    cases hf : newField a.Tag with
    | error err =>
      have hp := parseLeaf_error rt e env (pre ++ a.nestedPrefix) a.Tag a.typ err hf
      unfold LeafView.step at ha
      rw [hp] at ha
      injection ha with h1 h2
      subst h1 h2
      have ha' : a.step rt e env pre = ([], .returned err) := by unfold LeafView.step; exact hp
      simp [walk, ha'] at h
    | ok f =>
      rw [hf] at hfst
      simp only at hfst
      rw [← hks] at hfst
      subst hfst
      cases j with
      | zero =>
        refine ⟨a, f, by simp, hf, ?_⟩
        cases st <;> simp [walk, ha] at h <;> exact h.symm
      | succ j =>
        cases st with
        | assigned x =>
          simp only [walk, ha, List.singleton_append, List.getElem?_cons_succ] at h
          obtain ⟨l, f', h1, h2, h3⟩ := ih j key h
          exact ⟨l, f', by simpa using h1, h2, h3⟩
        | returned err => simp [walk, ha] at h
        | panicked => simp [walk, ha] at h

theorem walk_ok_length (rt : Runtime) (e : Envee) (env : Environ) (pre : String) :
    ∀ ls : List LeafView, (walk rt e env pre ls).2.2 = .ok →
      (walk rt e env pre ls).2.1.length = ls.length := by
  intro ls
  induction ls with
  | nil => intro _; simp [walk]
  | cons a ls ih =>
    intro h
    have hfst := parseLeaf_fst rt e env (pre ++ a.nestedPrefix) a.Tag a.typ
    rcases ha : a.step rt e env pre with ⟨ks, st⟩
    have hks : ks = (parseLeaf rt e env (pre ++ a.nestedPrefix) a.Tag a.typ).1 := by
      unfold LeafView.step at ha; rw [ha]
    cases st with
    | assigned x =>
      simp only [walk, ha] at h ⊢
      cases hf : newField a.Tag with
      | error err =>
        have hp := parseLeaf_error rt e env (pre ++ a.nestedPrefix) a.Tag a.typ err hf
        unfold LeafView.step at ha
        rw [hp] at ha
        cases ha
      | ok f =>
        rw [hf] at hfst
        simp only at hfst
        rw [← hks] at hfst
        subst hfst
        simp [ih h]
    | returned err => simp [walk, ha] at h
    | panicked => simp [walk, ha] at h

/-! ### Errors of the conversions -/

theorem map_error {α β : Type} (r : Except GoError α) (g : α → β) (err : GoError)
    (h : r.map g = .error err) : r = .error err := by
  cases r with
  | ok a => simp [Except.map] at h
  | error e => simpa [Except.map] using h

theorem ParseUint_error (s : String) (b : Nat) (err : GoError)
    (h : strconv.ParseUint s b = .error err) : ∃ c, err = .num "ParseUint" s c := by
  unfold strconv.ParseUint at h
  split at h
  · cases h
  · rename_i c _
    injection h with h
    exact ⟨c, h.symm⟩

theorem ParseInt_error (s : String) (b : Nat) (err : GoError)
    (h : strconv.ParseInt s b = .error err) : ∃ c, err = .num "ParseInt" s c := by
  unfold strconv.ParseInt at h
  split at h
  · cases h
  · rename_i c _
    injection h with h
    exact ⟨c, h.symm⟩

theorem Atoi_error (rt : Runtime) (s : String) (err : GoError)
    (h : strconv.Atoi rt s = .error err) : ∃ c, err = .num "Atoi" s c := by
  unfold strconv.Atoi at h
  split at h
  · cases h
  · rename_i c _
    injection h with h
    exact ⟨c, h.symm⟩

theorem ParseBool_error (s : String) (err : GoError)
    (h : strconv.ParseBool s = .error err) : err = .num "ParseBool" s .invalid := by
  unfold strconv.ParseBool at h
  split at h
  · cases h
  · split at h
    · cases h
    · injection h with h
      exact h.symm

theorem ParseFloat_error (rt : Runtime) (s : String) (b : Nat) (err : GoError)
    (h : strconv.ParseFloat rt s b = .error err) : ∃ c, err = .num "ParseFloat" s c := by
  unfold strconv.ParseFloat at h
  split at h
  · cases h
  · rename_i c _
    injection h with h
    exact ⟨c, h.symm⟩

/-- An error of `parseKindValue` is a `*NumError` of `strconv` or the
`ErrUnsupportedType` wrap. -/
theorem parseKindValue_error (rt : Runtime) (v : String) (p : Kind) (err : GoError)
    (h : parseKindValue rt v p = .error err) :
    (∃ F c, err = .num F v c) ∨
      err = .wrap "%w: %s:%q" [kindName p, v] (.sentinel .ErrUnsupportedType) := by
  cases p <;> simp only [parseKindValue] at h <;>
    first
    | (cases h; done)
    | (injection h with h; exact Or.inr h.symm)
    | (obtain ⟨c, hc⟩ := ParseInt_error _ _ _ (map_error _ _ _ h); exact Or.inl ⟨_, c, hc⟩)
    | (obtain ⟨c, hc⟩ := ParseUint_error _ _ _ (map_error _ _ _ h); exact Or.inl ⟨_, c, hc⟩)
    | (obtain ⟨c, hc⟩ := Atoi_error _ _ _ (map_error _ _ _ h); exact Or.inl ⟨_, c, hc⟩)
    | (obtain ⟨c, hc⟩ := ParseFloat_error _ _ _ _ (map_error _ _ _ h); exact Or.inl ⟨_, c, hc⟩)
    | (exact Or.inl ⟨_, _, ParseBool_error _ _ (map_error _ _ _ h)⟩)

/-- An error of `parseTypeValue` is an error of `time.ParseDuration` or the
`ErrUnsupportedType` wrap. -/
theorem parseTypeValue_error (rt : Runtime) (v : String) (t : RType) (err : GoError)
    (h : parseTypeValue rt v t = .error err) :
    (t.Name = "Duration" ∧ ∃ msg, err = .duration msg) ∨
      (t.Name ≠ "Duration" ∧
        err = .wrap "%w: %s:%q" [t.Name, v] (.sentinel .ErrUnsupportedType)) := by
  unfold parseTypeValue at h
  split at h
  · rename_i hn
    left
    refine ⟨hn, ?_⟩
    unfold ParseDuration at h
    cases hd : rt.ParseDuration v with
    | ok d => simp [hd] at h
    | error msg =>
      simp only [hd] at h
      injection h with h
      exact ⟨msg, h.symm⟩
  · rename_i hn
    right
    injection h with h
    exact ⟨hn, h.symm⟩

/-- No conversion error matches a sentinel other than `ErrUnsupportedType`. -/
theorem convertValue_error_Is (rt : Runtime) (t : RType) (s : String) (err : GoError)
    (h : convertValue rt t s = .error err) (x : Sentinel) (hx : x ≠ .ErrUnsupportedType) :
    err.Is x = false := by
  unfold convertValue at h
  cases h1 : parseTypeValue rt s t with
  | ok typed => simp [h1] at h
  | error e1 =>
    simp only [h1] at h
    rcases parseTypeValue_error rt s t e1 h1 with ⟨_, msg, rfl⟩ | ⟨_, rfl⟩
    · simp only [GoError.Is, Bool.false_eq_true, if_false] at h
      injection h with h
      subst h
      rfl
    · simp only [GoError.Is, decide_True, if_true] at h
      rcases parseKindValue_error rt s t.Kind err h with ⟨F, c, rfl⟩ | rfl
      · rfl
      · cases x <;> simp_all [GoError.Is]

/-! ### `newField` -/

/-- `newField` in one formula, for a tag with `env`. -/
theorem newField_eq (tags : StructTag) (nameVal : String)
    (h : StructTag.Lookup tags "env" = some nameVal) :
    newField tags =
      match strings.Split nameVal ',' with
      | [p] => .ok ⟨p, StructTag.Get tags "default", false⟩
      | [a, b] =>
        if a = "required" then .ok ⟨b, StructTag.Get tags "default", true⟩
        else if b = "required" then .ok ⟨a, StructTag.Get tags "default", true⟩
        else .error (.wrap "%w: env:%q" [nameVal] (.sentinel .ErrUnknownTagValue))
      | _ => .error (.wrap "%w: env:%q" [nameVal] (.sentinel .ErrUnknownTagValue)) := by
  unfold newField
  simp only [h]
  rcases hs : strings.Split nameVal ',' with _ | ⟨a, _ | ⟨b, _ | ⟨c, r⟩⟩⟩
  · simp [MaxDefinedTagParts]
  · simp [MaxDefinedTagParts, StructTag.Get]
  · simp only [MaxDefinedTagParts, List.length_cons, List.length_nil, List.getD_cons_zero,
      List.getD_cons_succ]
    simp only [StructTag.Get]
    cases StructTag.Lookup tags "default" <;> simp
  · simp [MaxDefinedTagParts]

theorem newField_defValue (tags : StructTag) (f : field) (h : newField tags = .ok f) :
    f.defValue = StructTag.Get tags "default" := by
  cases henv : StructTag.Lookup tags "env" with
  | none => simp [newField, henv] at h
  | some nameVal =>
    rw [newField_eq tags nameVal henv] at h
    split at h
    · injection h with h; rw [← h]
    · split at h
      · injection h with h; rw [← h]
      · split at h
        · injection h with h; rw [← h]
        · cases h
    · cases h

theorem parseIntCause_empty (b : Nat) : strconv.parseIntCause "".data b = .error .invalid := rfl

theorem parseUintCause_empty (b : Nat) : strconv.parseUintCause "".data b = .error .invalid := rfl

/-- The integer kinds. -/
theorem parseKindValue_empty (rt : Runtime) (p : Kind)
    (hp : p ∈ [Kind.Int, .Int8, .Int16, .Int32, .Int64, .Uint, .Uint8, .Uint16, .Uint32,
      .Uint64]) :
    ∃ F, parseKindValue rt "" p = .error (.num F "" .invalid) := by
  simp only [List.mem_cons, List.mem_singleton, List.mem_nil_iff, or_false] at hp
  rcases hp with h | h | h | h | h | h | h | h | h | h <;> subst h <;>
    first
    | exact ⟨"Atoi", rfl⟩
    | exact ⟨"ParseInt", rfl⟩
    | exact ⟨"ParseUint", rfl⟩

/-! ### `strings.Split` -/

theorem splitChars_ne_nil (sep : Char) (s : List Char) : strings.splitChars sep s ≠ [] := by
  cases s with
  | nil => simp [strings.splitChars]
  | cons c cs =>
    unfold strings.splitChars
    split
    · simp
    · split <;> simp

theorem splitChars_append (sep : Char) (a b : List Char) :
    strings.splitChars sep (a ++ sep :: b) =
      strings.splitChars sep a ++ strings.splitChars sep b := by
  induction a with
  | nil => simp [strings.splitChars]
  | cons c cs ih =>
    simp only [List.cons_append, strings.splitChars]
    split
    · simp [ih]
    · simp only [List.append_eq]
      rw [ih]
      rcases h : strings.splitChars sep cs with _ | ⟨p, ps⟩
      · exact absurd h (splitChars_ne_nil sep cs)
      · simp

theorem Split_ne_nil (s : String) (sep : Char) : strings.Split s sep ≠ [] := by
  unfold strings.Split
  simp [splitChars_ne_nil]

theorem Split_marker_last (N : String) :
    strings.Split (N ++ ",required") ',' = strings.Split N ',' ++ ["required"] := by
  unfold strings.Split
  have h : (N ++ ",required").data = N.data ++ ',' :: "required".data := by
    rw [String.data_append]
  rw [h, splitChars_append, List.map_append]
  rfl

theorem Split_marker_first (N : String) :
    strings.Split ("required," ++ N) ',' = "required" :: strings.Split N ',' := by
  unfold strings.Split
  have h : ("required," ++ N).data = "required".data ++ ',' :: N.data := by
    rw [String.data_append]; rfl
  rw [h, splitChars_append, List.map_append]
  rfl

theorem Is_wrapGroups (gs : List (String × StructTag)) (err : GoError) (s : Sentinel) :
    (wrapGroups gs err).Is s = err.Is s := by
  induction gs with
  | nil => rfl
  | cons g gs ih => simpa [wrapGroups, GoError.Is] using ih

/-! ## The claims -/

/-- C1: whenever `Parse` returns no error, every leaf of the structure, in
declaration order and at every depth, is the same field as before and holds
the conversion to its declared type of its resolved string: the value of the
variable named global prefix + nested prefixes + field name when the
environment has it, the field's default string otherwise. -/
theorem Parse_binds_every_leaf (rt : Runtime) (e : Envee) (env : Environ) (o : Struct)
    (h : (e.Parse rt env o).status = .ok) :
    List.Forall₂
      (fun l l' =>
        l'.groups = l.groups ∧ l'.Name = l.Name ∧ l'.Tag = l.Tag ∧ l'.typ = l.typ ∧
          ∃ f, newField l.Tag = .ok f ∧
            convertValue rt l.typ
              (match env (e.pfx ++ l.nestedPrefix ++ f.name) with
                | some v => v
                | none => f.defValue) = .ok l'.value)
      o.leaves (e.Parse rt env o).target.leaves := by
  obtain ⟨hall, ht, _⟩ := Parse_ok rt e env o h
  rw [ht]
  exact forall₂_bound rt e env o.leaves hall

theorem Parse_binds_every_leaf_witness :
    (New.Parse rt64 (environ [("NAME", "username"), ("AGE", "18")]) testConfig).status = .ok ∧
      List.Forall₂
        (fun l l' =>
          l'.groups = l.groups ∧ l'.Name = l.Name ∧ l'.Tag = l.Tag ∧ l'.typ = l.typ ∧
            ∃ f, newField l.Tag = .ok f ∧
              convertValue rt64 l.typ
                (match environ [("NAME", "username"), ("AGE", "18")]
                    (New.pfx ++ l.nestedPrefix ++ f.name) with
                  | some v => v
                  | none => f.defValue) = .ok l'.value)
        testConfig.leaves
        (New.Parse rt64 (environ [("NAME", "username"), ("AGE", "18")]) testConfig).target.leaves :=
  ⟨by decide, Parse_binds_every_leaf rt64 New _ testConfig (by decide)⟩

/-- Scenario A of the specification, `TestEnvee_Parse`. -/
theorem scenario_A :
    (New.Parse rt64 (environ [("NAME", "username"), ("AGE", "18")]) testConfig).target =
      .leaf "Name" [("env", "NAME,required")] (predeclared .String)
        ⟨predeclared .String, .str "username"⟩
        (.leaf "Age" [("default", "42"), ("env", "AGE")] (predeclared .Uint32)
          ⟨predeclared .Uint32, .uint 18⟩ .nil) := by
  decide

/-- C2: every key `Parse` passes to `os.LookupEnv` is the key of the leaf at
the same position in declaration order, namely the prefix set by `SetPrefix`,
then the `prefix` fragments of the nested fields enclosing that leaf from the
outermost to the innermost (the empty string for a nested field without
`prefix`), then the name `newField` resolved, with nothing in between; and when
`Parse` returns no error every leaf was looked up. A leaf declared after a
nested field has only its own parents among its enclosing fields. -/
theorem Parse_lookup_keys (rt : Runtime) (e : Envee) (g : String) (env : Environ)
    (o : Struct) :
    (∀ (j : Nat) (key : String),
        ((e.SetPrefix g).Parse rt env o).lookups[j]? = some key →
        ∃ l f, o.leaves[j]? = some l ∧ newField l.Tag = .ok f ∧
          key = g ++ concat (l.groups.map fun gr => StructTag.Get gr.2 "prefix") ++ f.name) ∧
      (((e.SetPrefix g).Parse rt env o).status = .ok →
        ((e.SetPrefix g).Parse rt env o).lookups.length = o.leaves.length) := by
  have hw := Parse_walk rt (e.SetPrefix g) env o
  constructor
  · intro j key h
    have h' : (walk rt (e.SetPrefix g) env "" o.leaves).2.1[j]? = some key := by rw [hw]; exact h
    obtain ⟨l, f, h1, h2, h3⟩ := walk_lookups rt (e.SetPrefix g) env "" o.leaves j key h'
    refine ⟨l, f, h1, h2, ?_⟩
    rw [h3, String.empty_append]
    rfl
  · intro h
    have h' : (walk rt (e.SetPrefix g) env "" o.leaves).2.2 = .ok := by rw [hw]; exact h
    have := walk_ok_length rt (e.SetPrefix g) env "" o.leaves h'
    rw [hw] at this
    exact this

theorem Parse_lookup_keys_witness :
    ((New.SetPrefix "APP_").Parse rt64
        (environ [("APP_MONGO_HOST", "not-localhost"), ("APP_SHUTDOWN_PERIOD", "9s")])
        testConfigDuration).lookups =
        ["APP_SERVICE", "APP_MONGO_HOST", "APP_MONGO_PORT", "APP_MONGO_TIMEOUT",
          "APP_SHUTDOWN_PERIOD"] ∧
      ∃ l f, testConfigDuration.leaves[4]? = some l ∧ newField l.Tag = .ok f ∧
        "APP_SHUTDOWN_PERIOD" =
          "APP_" ++ concat (l.groups.map fun gr => StructTag.Get gr.2 "prefix") ++ f.name :=
  ⟨by decide,
    (Parse_lookup_keys rt64 New "APP_"
      (environ [("APP_MONGO_HOST", "not-localhost"), ("APP_SHUTDOWN_PERIOD", "9s")])
      testConfigDuration).1 4 "APP_SHUTDOWN_PERIOD" (by decide)⟩

/-- C3: when `Parse` reaches a leaf that `newField` resolves with the
`required` marker and whose variable is absent from the environment, it
returns the `ErrMissingRequired` error carrying the field's name (inside one
layer for each enclosing nested field), whatever the default and the type of
the field; the error matches `ErrMissingRequired`, and that leaf and the
leaves after it keep their values. -/
theorem required_absent_fails (rt : Runtime) (e : Envee) (env : Environ) (o : Struct)
    (k : Nat) (l : LeafView) (f : field) (hk : o.leaves[k]? = some l)
    (hr : Reaches rt e env o k = true) (hf : newField l.Tag = .ok f)
    (hm : f.required = true) (habs : env (e.pfx ++ l.nestedPrefix ++ f.name) = none) :
    (e.Parse rt env o).status =
        .error (wrapGroups l.groups
          (.wrap "%w: %q" [f.name] (.sentinel .ErrMissingRequired))) ∧
      (wrapGroups l.groups
          (.wrap "%w: %q" [f.name] (.sentinel .ErrMissingRequired))).Is .ErrMissingRequired
        = true ∧
      (e.Parse rt env o).target.leaves.drop k = o.leaves.drop k := by
  have hs : (parseLeaf rt e env l.nestedPrefix l.Tag l.typ).2 =
      .returned (.wrap "%w: %q" [f.name] (.sentinel .ErrMissingRequired)) := by
    rw [parseLeaf_ok rt e env _ _ _ f hf]
    simp [habs, field.isRequired, hm]
  obtain ⟨h1, _, h3⟩ := Parse_stop rt e env o k l _ hk hr hs
  refine ⟨h1, ?_, h3⟩
  rw [Is_wrapGroups]
  rfl

theorem required_absent_fails_witness :
    (New.Parse rt64 (environ []) testConfig).status =
        .error (wrapGroups []
          (.wrap "%w: %q" ["NAME"] (.sentinel .ErrMissingRequired))) ∧
      (wrapGroups []
          (.wrap "%w: %q" ["NAME"] (.sentinel .ErrMissingRequired))).Is .ErrMissingRequired
        = true ∧
      (New.Parse rt64 (environ []) testConfig).target.leaves.drop 0 = testConfig.leaves.drop 0 :=
  required_absent_fails rt64 New (environ []) testConfig 0
    ⟨[], "Name", [("env", "NAME,required")], predeclared .String, zeroOf .String⟩
    ⟨"NAME", "", true⟩ (by decide) (by decide) rfl rfl (by decide)

/-- C4, counterexample: the tag `default:"" env:"A"` supplies default metadata
and carries no marker, and the resolved field is required all the same. -/
theorem empty_default_is_required :
    ∃ f, newField [("default", ""), ("env", "A")] = .ok f ∧
      ¬ (f.isRequired = true ↔
          (f.required = true ∨
            StructTag.Lookup [("default", ""), ("env", "A")] "default" = none)) :=
  ⟨⟨"A", "", false⟩, rfl, by decide⟩

/-- C4, as the code has it: the field `newField` resolves is required if and
only if the name metadata carries the `required` marker, or no default
metadata was supplied, or the default supplied is the empty string; in
particular, when `Parse` reaches a leaf with neither a default nor a marker
whose variable is absent, it returns the `ErrMissingRequired` error naming the
field. -/
theorem isRequired_iff (tag : StructTag) (f : field) (hf : newField tag = .ok f) :
    (f.isRequired = true ↔
        (f.required = true ∨ StructTag.Lookup tag "default" = none ∨
          StructTag.Lookup tag "default" = some "")) ∧
      ∀ (rt : Runtime) (e : Envee) (env : Environ) (o : Struct) (k : Nat) (l : LeafView),
        o.leaves[k]? = some l → l.Tag = tag → Reaches rt e env o k = true →
        f.required = false → StructTag.Lookup tag "default" = none →
        env (e.pfx ++ l.nestedPrefix ++ f.name) = none →
        (e.Parse rt env o).status =
            .error (wrapGroups l.groups
              (.wrap "%w: %q" [f.name] (.sentinel .ErrMissingRequired))) ∧
          (wrapGroups l.groups
            (.wrap "%w: %q" [f.name] (.sentinel .ErrMissingRequired))).Is .ErrMissingRequired
            = true := by
  have hd := newField_defValue tag f hf
  constructor
  · unfold field.isRequired
    rw [hd]
    unfold StructTag.Get
    cases StructTag.Lookup tag "default" <;> simp
  · intro rt e env o k l hk htag hr hm hnone habs
    subst htag
    have hs : (parseLeaf rt e env l.nestedPrefix l.Tag l.typ).2 =
        .returned (.wrap "%w: %q" [f.name] (.sentinel .ErrMissingRequired)) := by
      rw [parseLeaf_ok rt e env _ _ _ f hf]
      simp [habs, field.isRequired, hd, StructTag.Get, hnone]
    obtain ⟨h1, _, _⟩ := Parse_stop rt e env o k l _ hk hr hs
    refine ⟨h1, ?_⟩
    rw [Is_wrapGroups]
    rfl

theorem isRequired_iff_witness :
    newField [("env", "SCORE")] = .ok ⟨"SCORE", "", false⟩ ∧
      (field.isRequired ⟨"SCORE", "", false⟩ = true ↔
        ((⟨"SCORE", "", false⟩ : field).required = true ∨
          StructTag.Lookup [("env", "SCORE")] "default" = none ∨
          StructTag.Lookup [("env", "SCORE")] "default" = some "")) :=
  ⟨rfl, (isRequired_iff [("env", "SCORE")] ⟨"SCORE", "", false⟩ rfl).1⟩

/-- C5, counterexample: a string field declaring the default `""` without a
marker. With `A` unset `Parse` fails with `ErrMissingRequired`, while with `A`
set to that default string it binds the field. -/
theorem empty_default_not_applied :
    StructTag.Lookup [("default", ""), ("env", "A")] "default" = some "" ∧
      newField [("default", ""), ("env", "A")] = .ok ⟨"A", "", false⟩ ∧
      (New.Parse rt64 (environ [])
          (.leaf "A" [("default", ""), ("env", "A")] (predeclared .String)
            (zeroOf .String) .nil)).status =
        .error (.wrap "%w: %q" ["A"] (.sentinel .ErrMissingRequired)) ∧
      (New.Parse rt64 (environ [("A", "")])
          (.leaf "A" [("default", ""), ("env", "A")] (predeclared .String)
            (zeroOf .String) .nil)).status = .ok :=
  ⟨rfl, rfl, by decide, by decide⟩

/-- C5, as the code has it: when `Parse` reaches a leaf that declares a
non-empty default and has no `required` marker, and its variable is unset, the
iteration over that leaf is exactly the one `Parse` runs with the variable set
to the default string; it does not return an error matching
`ErrMissingRequired`; and when the default string converts to a value
assignable to the field, the leaf holds that value after `Parse`. -/
theorem default_applied (rt : Runtime) (e : Envee) (env : Environ) (o : Struct)
    (k : Nat) (l : LeafView) (f : field) (d : String) (hk : o.leaves[k]? = some l)
    (hr : Reaches rt e env o k = true) (hf : newField l.Tag = .ok f)
    (hm : f.required = false) (hd : StructTag.Lookup l.Tag "default" = some d)
    (hne : d ≠ "") (habs : env (e.pfx ++ l.nestedPrefix ++ f.name) = none) :
    parseLeaf rt e env l.nestedPrefix l.Tag l.typ =
        parseLeaf rt e (Setenv env (e.pfx ++ l.nestedPrefix ++ f.name) d)
          l.nestedPrefix l.Tag l.typ ∧
      (∀ err, (parseLeaf rt e env l.nestedPrefix l.Tag l.typ).2 = .returned err →
        err.Is .ErrMissingRequired = false) ∧
      (∀ x, convertValue rt l.typ d = .ok x → AssignableTo rt x.typ l.typ = true →
        (e.Parse rt env o).target.leaves[k]? = some (l.withValue x)) := by
  have hdv : f.defValue = d := by
    rw [newField_defValue l.Tag f hf]
    simp [StructTag.Get, hd]
  have hnr : f.isRequired = false := by
    simp [field.isRequired, hm, hdv, hne]
  have hstep : parseLeaf rt e env l.nestedPrefix l.Tag l.typ =
      ([e.pfx ++ l.nestedPrefix ++ f.name],
        match convertValue rt l.typ d with
        | .ok x => Set rt l.typ x
        | .error err => .returned (.wrap "%s: %w" [f.name] err)) := by
    rw [parseLeaf_ok rt e env _ _ _ f hf]
    simp [habs, hnr, resolved, hdv]
  refine ⟨?_, ?_, ?_⟩
  · rw [hstep, parseLeaf_ok rt e _ _ _ _ f hf]
    simp [Setenv, resolved]
  · intro err herr
    rw [hstep] at herr
    cases hc : convertValue rt l.typ d with
    | ok x =>
      rw [hc] at herr
      simp only [Set] at herr
      split at herr <;> cases herr
    | error e1 =>
      rw [hc] at herr
      simp only at herr
      injection herr with herr
      subst herr
      exact convertValue_error_Is rt l.typ d e1 hc .ErrMissingRequired (by decide)
  · intro x hx ha
    apply Parse_pass rt e env o k l x hk hr
    rw [hstep, hx]
    simp [Set, ha]

theorem default_applied_witness :
    (New.Parse rt64 (environ [("NAME", "username2")]) testConfig).target.leaves[1]? =
      some ((⟨[], "Age", [("default", "42"), ("env", "AGE")], predeclared .Uint32,
        zeroOf .Uint32⟩ : LeafView).withValue ⟨predeclared .Uint32, .uint 42⟩) :=
  (default_applied rt64 New (environ [("NAME", "username2")]) testConfig 1
    ⟨[], "Age", [("default", "42"), ("env", "AGE")], predeclared .Uint32, zeroOf .Uint32⟩
    ⟨"AGE", "42", false⟩ "42" (by decide) (by decide) rfl rfl rfl (by decide)
    (by decide)).2.2 ⟨predeclared .Uint32, .uint 42⟩ rfl (by decide)

/-- C6: when `Parse` reaches a leaf whose variable is present in the
environment with value `v` (the empty string included), the iteration over the
leaf converts `v` and does not depend on the default: a conversion error is
returned with the field's name, a converted value assignable to the field is
what the leaf holds after `Parse`. With `v` empty, a field of a string type
gets `""`, and for a field of an integer kind the conversion is a syntax error
of `strconv`. -/
theorem present_value_converted (rt : Runtime) (e : Envee) (env : Environ) (o : Struct)
    (k : Nat) (l : LeafView) (f : field) (v : String) (hk : o.leaves[k]? = some l)
    (hr : Reaches rt e env o k = true) (hf : newField l.Tag = .ok f)
    (hpres : env (e.pfx ++ l.nestedPrefix ++ f.name) = some v) :
    parseLeaf rt e env l.nestedPrefix l.Tag l.typ =
        ([e.pfx ++ l.nestedPrefix ++ f.name],
          match convertValue rt l.typ v with
          | .ok x => Set rt l.typ x
          | .error err => .returned (.wrap "%s: %w" [f.name] err)) ∧
      (∀ err, convertValue rt l.typ v = .error err →
        (e.Parse rt env o).status =
            .error (wrapGroups l.groups (.wrap "%s: %w" [f.name] err)) ∧
          (e.Parse rt env o).target.leaves.drop k = o.leaves.drop k) ∧
      (∀ x, convertValue rt l.typ v = .ok x → AssignableTo rt x.typ l.typ = true →
        (e.Parse rt env o).target.leaves[k]? = some (l.withValue x)) ∧
      (v = "" → l.typ.Name ≠ "Duration" → l.typ.Kind = .String →
        convertValue rt l.typ v = .ok ⟨predeclared .String, .str ""⟩) ∧
      (v = "" → l.typ.Name ≠ "Duration" →
        l.typ.Kind ∈ [Kind.Int, .Int8, .Int16, .Int32, .Int64, .Uint, .Uint8, .Uint16, .Uint32,
          .Uint64] →
        ∃ F, convertValue rt l.typ v = .error (.num F "" .invalid)) := by
  have hstep : parseLeaf rt e env l.nestedPrefix l.Tag l.typ =
      ([e.pfx ++ l.nestedPrefix ++ f.name],
        match convertValue rt l.typ v with
        | .ok x => Set rt l.typ x
        | .error err => .returned (.wrap "%s: %w" [f.name] err)) := by
    rw [parseLeaf_ok rt e env _ _ _ f hf]
    simp [hpres, resolved]
  have hconv : l.typ.Name ≠ "Duration" →
      convertValue rt l.typ "" = parseKindValue rt "" l.typ.Kind := by
    intro hn
    simp [convertValue, parseTypeValue, hn, GoError.Is]
  refine ⟨hstep, ?_, ?_, ?_, ?_⟩
  · intro err herr
    have hs : (parseLeaf rt e env l.nestedPrefix l.Tag l.typ).2 =
        .returned (.wrap "%s: %w" [f.name] err) := by rw [hstep, herr]
    obtain ⟨h1, _, h3⟩ := Parse_stop rt e env o k l _ hk hr hs
    exact ⟨h1, h3⟩
  · intro x hx ha
    apply Parse_pass rt e env o k l x hk hr
    rw [hstep, hx]
    simp [Set, ha]
  · intro hv hn hkind
    subst hv
    rw [hconv hn, hkind]
    rfl
  · intro hv hn hkind
    subst hv
    rw [hconv hn]
    exact parseKindValue_empty rt l.typ.Kind hkind

theorem present_value_converted_witness :
    (New.Parse rt64 (environ [("NAME", "username"), ("AGE", "")]) testConfig).status =
        .error (wrapGroups [] (.wrap "%s: %w" ["AGE"] (.num "ParseUint" "" .invalid))) ∧
      (New.Parse rt64 (environ [("NAME", "username"), ("AGE", "")]) testConfig).target.leaves.drop 1
        = testConfig.leaves.drop 1 :=
  (present_value_converted rt64 New (environ [("NAME", "username"), ("AGE", "")]) testConfig 1
    ⟨[], "Age", [("default", "42"), ("env", "AGE")], predeclared .Uint32, zeroOf .Uint32⟩
    ⟨"AGE", "42", false⟩ "" (by decide) (by decide) rfl (by decide)).2.1
    (.num "ParseUint" "" .invalid) rfl

/-- C7: how `newField` resolves the name metadata `nameVal`, split at the
commas: one part `p` gives the name `p` without the required flag (whatever
`p` is); two parts with `required` first give the second part as the name,
flagged required; two parts with `required` second and not first give the
first part as the name, flagged required; so `N,required` and `required,N`
resolve alike for every `N`; and the default value is the `default` metadata,
or the empty string without it. -/
theorem newField_resolves (tags : StructTag) (nameVal : String)
    (h : StructTag.Lookup tags "env" = some nameVal) :
    (∀ p, strings.Split nameVal ',' = [p] →
        newField tags = .ok ⟨p, StructTag.Get tags "default", false⟩) ∧
      (∀ b, strings.Split nameVal ',' = ["required", b] →
        newField tags = .ok ⟨b, StructTag.Get tags "default", true⟩) ∧
      (∀ a, a ≠ "required" → strings.Split nameVal ',' = [a, "required"] →
        newField tags = .ok ⟨a, StructTag.Get tags "default", true⟩) ∧
      (∀ (N : String) (rest : StructTag),
        (newField (("env", N ++ ",required") :: rest)).toOption =
          (newField (("env", "required," ++ N) :: rest)).toOption) ∧
      StructTag.Get tags "default" =
        (match StructTag.Lookup tags "default" with
          | some defVal => defVal
          | none => "") := by
  refine ⟨?_, ?_, ?_, ?_, rfl⟩
  · intro p hp
    rw [newField_eq tags nameVal h, hp]
  · intro b hb
    rw [newField_eq tags nameVal h, hb]
    simp
  · intro a ha hs
    rw [newField_eq tags nameVal h, hs]
    simp [ha]
  · intro N rest
    have h1 : StructTag.Lookup (("env", N ++ ",required") :: rest) "env" =
        some (N ++ ",required") := by simp [StructTag.Lookup]
    have h2 : StructTag.Lookup (("env", "required," ++ N) :: rest) "env" =
        some ("required," ++ N) := by simp [StructTag.Lookup]
    have hd : StructTag.Get (("env", N ++ ",required") :: rest) "default" =
        StructTag.Get (("env", "required," ++ N) :: rest) "default" := by
      simp [StructTag.Get, StructTag.Lookup]
    rw [newField_eq _ _ h1, newField_eq _ _ h2, Split_marker_last, Split_marker_first, hd]
    rcases hs : strings.Split N ',' with _ | ⟨p, _ | ⟨q, r⟩⟩
    · exact absurd hs (Split_ne_nil N ',')
    · by_cases hp : p = "required" <;> simp [hp, Except.toOption]
    · simp [Except.toOption]

theorem newField_resolves_witness :
    (∀ p, strings.Split "required" ',' = [p] →
        newField [("env", "required")] =
          .ok ⟨p, StructTag.Get [("env", "required")] "default", false⟩) ∧
      newField [("default", "42"), ("env", "AGE")] = .ok ⟨"AGE", "42", false⟩ ∧
      newField [("env", "")] = .ok ⟨"", "", false⟩ ∧
      newField [("env", "NAME,required")] = newField [("env", "required,NAME")] :=
  ⟨(newField_resolves [("env", "required")] "required" rfl).1, rfl, rfl, rfl⟩

/-- C8, counterexample: a field of a struct type whose `env` metadata has
three parts. `parse` recurses into the field without reading that metadata,
and `Parse` returns no error. -/
theorem nested_field_tag_ignored :
    strings.Split "a,b,c" ',' = ["a", "b", "c"] ∧
      (New.Parse rt64 (environ [])
          (.nested "In" [("env", "a,b,c")]
            (.leaf "X" [("default", "x"), ("env", "X")] (predeclared .String)
              (zeroOf .String) .nil)
            .nil)).status = .ok :=
  ⟨by decide, by decide⟩

/-- C8, for leaves: when `Parse` reaches a leaf whose name metadata splits at the commas
into more than two parts, or into two parts neither of which is `required`, it
returns the `ErrUnknownTagValue` wrap made by `newField` (inside one layer for
each enclosing nested field), an error matching `ErrUnknownTagValue`, whatever
the type of the field, its default metadata and the environment; no variable
is looked up for the field and it keeps its value, as do the leaves after
it. -/
theorem unknown_tag_value (rt : Runtime) (e : Envee) (env : Environ) (o : Struct)
    (k : Nat) (l : LeafView) (nameVal : String) (hk : o.leaves[k]? = some l)
    (hr : Reaches rt e env o k = true)
    (henv : StructTag.Lookup l.Tag "env" = some nameVal)
    (hbad : 2 < (strings.Split nameVal ',').length ∨
      ∃ a b, strings.Split nameVal ',' = [a, b] ∧ a ≠ "required" ∧ b ≠ "required") :
    newField l.Tag =
        .error (.wrap "%w: env:%q" [nameVal] (.sentinel .ErrUnknownTagValue)) ∧
      parseLeaf rt e env l.nestedPrefix l.Tag l.typ =
        ([], .returned (.wrap "%w: env:%q" [nameVal] (.sentinel .ErrUnknownTagValue))) ∧
      (e.Parse rt env o).status =
        .error (wrapGroups l.groups
          (.wrap "%w: env:%q" [nameVal] (.sentinel .ErrUnknownTagValue))) ∧
      (wrapGroups l.groups
          (.wrap "%w: env:%q" [nameVal] (.sentinel .ErrUnknownTagValue))).Is
        .ErrUnknownTagValue = true ∧
      (e.Parse rt env o).target.leaves.drop k = o.leaves.drop k := by
  have hnf : newField l.Tag =
      .error (.wrap "%w: env:%q" [nameVal] (.sentinel .ErrUnknownTagValue)) := by
    rw [newField_eq l.Tag nameVal henv]
    rcases hbad with hlen | ⟨a, b, hs, ha, hb⟩
    · rcases hs : strings.Split nameVal ',' with _ | ⟨a, _ | ⟨b, _ | ⟨c, r⟩⟩⟩
      · rfl
      · rw [hs] at hlen; simp at hlen
      · rw [hs] at hlen; simp at hlen
      · rfl
    · rw [hs]
      simp [ha, hb]
  have hp := parseLeaf_error rt e env l.nestedPrefix l.Tag l.typ _ hnf
  obtain ⟨h1, _, h3⟩ := Parse_stop rt e env o k l _ hk hr (by rw [hp])
  refine ⟨hnf, hp, h1, ?_, h3⟩
  rw [Is_wrapGroups]
  rfl

theorem unknown_tag_value_witness :
    (New.Parse rt64 (environ [("A", "1"), ("a,b,c", "2")])
        (.nested "Sub" []
          (.leaf "X" [("default", "7"), ("env", "a,b,c")] (predeclared .Int) (zeroOf .Int) .nil)
          .nil)).status =
      .error (wrapGroups [("Sub", [])]
        (.wrap "%w: env:%q" ["a,b,c"] (.sentinel .ErrUnknownTagValue))) :=
  (unknown_tag_value rt64 New (environ [("A", "1"), ("a,b,c", "2")])
    (.nested "Sub" []
      (.leaf "X" [("default", "7"), ("env", "a,b,c")] (predeclared .Int) (zeroOf .Int) .nil)
      .nil) 0
    ⟨[("Sub", [])], "X", [("default", "7"), ("env", "a,b,c")], predeclared .Int, zeroOf .Int⟩
    "a,b,c" (by decide) (by decide) rfl (Or.inl (by decide))).2.2.1

/-- C9: when `Parse` reaches a leaf without `env` metadata, every leaf before
it being bound, it returns `ErrNotProcessable` (inside one layer for each
enclosing nested field), whatever the environment, the type of the field and
its `default` metadata; no variable is looked up for the field, and that leaf
and every leaf after it keep their values. -/
theorem missing_env_tag (rt : Runtime) (e : Envee) (env : Environ) (o : Struct)
    (k : Nat) (l : LeafView) (hk : o.leaves[k]? = some l)
    (hr : Reaches rt e env o k = true) (henv : StructTag.Lookup l.Tag "env" = none) :
    (e.Parse rt env o).status =
        .error (wrapGroups l.groups (.sentinel .ErrNotProcessable)) ∧
      (wrapGroups l.groups (.sentinel .ErrNotProcessable)).Is .ErrNotProcessable = true ∧
      parseLeaf rt e env l.nestedPrefix l.Tag l.typ =
        ([], .returned (.sentinel .ErrNotProcessable)) ∧
      List.Forall₂ (IsBound rt e env) (o.leaves.take k)
        ((e.Parse rt env o).target.leaves.take k) ∧
      (e.Parse rt env o).target.leaves.drop k = o.leaves.drop k := by
  have hnf : newField l.Tag = .error (.sentinel .ErrNotProcessable) := by
    simp [newField, henv]
  have hp := parseLeaf_error rt e env l.nestedPrefix l.Tag l.typ _ hnf
  obtain ⟨h1, h2, h3⟩ := Parse_stop rt e env o k l _ hk hr (by rw [hp])
  refine ⟨h1, ?_, hp, h2, h3⟩
  rw [Is_wrapGroups]
  rfl

theorem missing_env_tag_witness :
    (New.Parse rt64 (environ [("NAME", "n"), ("Y", "5"), ("Z", "6")])
        (.leaf "Name" [("env", "NAME")] (predeclared .String) (zeroOf .String)
          (.leaf "Y" [("default", "1")] (predeclared .Int) (zeroOf .Int)
            (.leaf "Z" [("env", "Z")] (predeclared .Int) (zeroOf .Int) .nil)))).target =
      .leaf "Name" [("env", "NAME")] (predeclared .String) ⟨predeclared .String, .str "n"⟩
        (.leaf "Y" [("default", "1")] (predeclared .Int) (zeroOf .Int)
          (.leaf "Z" [("env", "Z")] (predeclared .Int) (zeroOf .Int) .nil)) ∧
      (New.Parse rt64 (environ [("NAME", "n"), ("Y", "5"), ("Z", "6")])
        (.leaf "Name" [("env", "NAME")] (predeclared .String) (zeroOf .String)
          (.leaf "Y" [("default", "1")] (predeclared .Int) (zeroOf .Int)
            (.leaf "Z" [("env", "Z")] (predeclared .Int) (zeroOf .Int) .nil)))).status =
        .error (wrapGroups [] (.sentinel .ErrNotProcessable)) :=
  ⟨by decide,
    (missing_env_tag rt64 New (environ [("NAME", "n"), ("Y", "5"), ("Z", "6")])
      (.leaf "Name" [("env", "NAME")] (predeclared .String) (zeroOf .String)
        (.leaf "Y" [("default", "1")] (predeclared .Int) (zeroOf .Int)
          (.leaf "Z" [("env", "Z")] (predeclared .Int) (zeroOf .Int) .nil))) 1
      ⟨[], "Y", [("default", "1")], predeclared .Int, zeroOf .Int⟩
      (by decide) (by decide) rfl).1⟩

/-- C10: when `Parse` returns an error, there is a first failing leaf in
declaration order (depth-first through the nested fields): every leaf before
it was assigned, its own iteration returned an error, and the error `Parse`
returns is that error inside one layer for each enclosing nested field; every
leaf before it holds its bound value, and the failing leaf and every leaf after
it hold the values they had before the call. -/
theorem Parse_fail_fast (rt : Runtime) (e : Envee) (env : Environ) (o : Struct)
    (E : GoError) (h : (e.Parse rt env o).status = .error E) :
    ∃ k l err, o.leaves[k]? = some l ∧ Reaches rt e env o k = true ∧
      (parseLeaf rt e env l.nestedPrefix l.Tag l.typ).2 = .returned err ∧
      E = wrapGroups l.groups err ∧
      List.Forall₂ (IsBound rt e env) (o.leaves.take k)
        ((e.Parse rt env o).target.leaves.take k) ∧
      (e.Parse rt env o).target.leaves.drop k = o.leaves.drop k := by
  have hw := Parse_walk rt e env o
  have h' : (walk rt e env "" o.leaves).2.2 = .error E := by rw [hw]; exact h
  obtain ⟨k, l, err, hk, hbefore, hstep, hE⟩ := walk_error rt e env "" o.leaves E h'
  have hr : Reaches rt e env o k = true := (reaches_iff rt e env o k).mpr hbefore
  rw [step_top] at hstep
  obtain ⟨_, h2, h3⟩ := Parse_stop rt e env o k l err hk hr hstep
  exact ⟨k, l, err, hk, hr, hstep, hE, h2, h3⟩

theorem Parse_fail_fast_witness :
    (New.Parse rt64 (environ [("NAME", "username"), ("AGE", "x")]) testConfig).status =
        .error (.wrap "%s: %w" ["AGE"] (.num "ParseUint" "x" .invalid)) ∧
      ∃ k l err, testConfig.leaves[k]? = some l ∧
        Reaches rt64 New (environ [("NAME", "username"), ("AGE", "x")]) testConfig k = true ∧
        (parseLeaf rt64 New (environ [("NAME", "username"), ("AGE", "x")])
          l.nestedPrefix l.Tag l.typ).2 = .returned err ∧
        GoError.wrap "%s: %w" ["AGE"] (.num "ParseUint" "x" .invalid) = wrapGroups l.groups err ∧
        List.Forall₂ (IsBound rt64 New (environ [("NAME", "username"), ("AGE", "x")]))
          (testConfig.leaves.take k)
          ((New.Parse rt64 (environ [("NAME", "username"), ("AGE", "x")])
            testConfig).target.leaves.take k) ∧
        (New.Parse rt64 (environ [("NAME", "username"), ("AGE", "x")])
          testConfig).target.leaves.drop k = testConfig.leaves.drop k :=
  ⟨by decide,
    Parse_fail_fast rt64 New (environ [("NAME", "username"), ("AGE", "x")]) testConfig _
      (by decide)⟩

/-- C12: when the recursive call for a nested field returns an error, `parse`
returns that error inside one `failed to parse sub struct` layer carrying the
nested field's name, an error that matches exactly the sentinels the nested
error matches; the fields declared after the nested field are left as they
were and no variable is looked up for them. Level by level, the error of a
failing leaf reaches the caller inside one layer for each enclosing nested
field, and matches what the leaf's error matches. -/
theorem nested_failure_wrapped (rt : Runtime) (e : Envee) (env : Environ) (name : String)
    (tag : StructTag) (inner rest : Struct) (pre : String) (err : GoError)
    (h : (parse rt e env inner (pre ++ StructTag.Get tag "prefix")).status = .error err) :
    parse rt e env (.nested name tag inner rest) pre =
        ⟨.nested name tag (parse rt e env inner (pre ++ StructTag.Get tag "prefix")).target rest,
          (parse rt e env inner (pre ++ StructTag.Get tag "prefix")).lookups,
          .error (.wrap "failed to parse sub struct %q: %w" [name] err)⟩ ∧
      (∀ s, (GoError.wrap "failed to parse sub struct %q: %w" [name] err).Is s = err.Is s) ∧
      ∀ (o : Struct) (k : Nat) (l : LeafView) (e0 : GoError),
        o.leaves[k]? = some l → Reaches rt e env o k = true →
        (parseLeaf rt e env l.nestedPrefix l.Tag l.typ).2 = .returned e0 →
        (e.Parse rt env o).status = .error (wrapGroups l.groups e0) ∧
          (∀ s, (wrapGroups l.groups e0).Is s = e0.Is s) ∧
          (e.Parse rt env o).target.leaves.drop k = o.leaves.drop k := by
  refine ⟨?_, fun s => rfl, ?_⟩
  · simp only [parse, h]
  · intro o k l e0 hk hr hs
    obtain ⟨h1, _, h3⟩ := Parse_stop rt e env o k l e0 hk hr hs
    exact ⟨h1, fun s => Is_wrapGroups l.groups e0 s, h3⟩

theorem nested_failure_wrapped_witness :
    parse rt64 New (environ [("AGE", "7")])
        (.nested "Basic" [("prefix", "BASIC_")] testConfig
          (.leaf "Service" [("default", "svc"), ("env", "SERVICE")] (predeclared .String)
            (zeroOf .String) .nil)) "" =
      ⟨.nested "Basic" [("prefix", "BASIC_")]
          (parse rt64 New (environ [("AGE", "7")]) testConfig
            ("" ++ StructTag.Get [("prefix", "BASIC_")] "prefix")).target
          (.leaf "Service" [("default", "svc"), ("env", "SERVICE")] (predeclared .String)
            (zeroOf .String) .nil),
        (parse rt64 New (environ [("AGE", "7")]) testConfig
          ("" ++ StructTag.Get [("prefix", "BASIC_")] "prefix")).lookups,
        .error (.wrap "failed to parse sub struct %q: %w" ["Basic"]
          (.wrap "%w: %q" ["NAME"] (.sentinel .ErrMissingRequired)))⟩ :=
  (nested_failure_wrapped rt64 New (environ [("AGE", "7")]) "Basic" [("prefix", "BASIC_")]
    testConfig
    (.leaf "Service" [("default", "svc"), ("env", "SERVICE")] (predeclared .String)
      (zeroOf .String) .nil) ""
    (.wrap "%w: %q" ["NAME"] (.sentinel .ErrMissingRequired)) (by decide)).1

theorem parseKindValue_unsupported (rt : Runtime) (v : String) (p : Kind)
    (hp : supportedKind p = false) :
    parseKindValue rt v p =
      .error (.wrap "%w: %s:%q" [kindName p, v] (.sentinel .ErrUnsupportedType)) := by
  cases p <;> first | rfl | (simp [supportedKind] at hp)

theorem parseTypeValue_other (rt : Runtime) (v : String) (t : RType)
    (hn : t.Name ≠ "Duration") :
    parseTypeValue rt v t =
      .error (.wrap "%w: %s:%q" [t.Name, v] (.sentinel .ErrUnsupportedType)) := by
  simp [parseTypeValue, hn]

theorem parseTypeValue_duration (rt : Runtime) (v : String) (t : RType)
    (hn : t.Name = "Duration") :
    parseTypeValue rt v t =
      match rt.ParseDuration v with
      | .ok d => .ok ⟨timeDuration, .int d⟩
      | .error msg => .error (.duration msg) := by
  simp only [parseTypeValue, hn, if_true, ParseDuration]
  cases rt.ParseDuration v <;> rfl

theorem convertValue_other (rt : Runtime) (t : RType) (s : String) (hn : t.Name ≠ "Duration") :
    convertValue rt t s = parseKindValue rt s t.Kind := by
  simp [convertValue, parseTypeValue, hn, GoError.Is]

theorem convertValue_duration (rt : Runtime) (t : RType) (s : String)
    (hn : t.Name = "Duration") :
    convertValue rt t s = parseTypeValue rt s t := by
  unfold convertValue
  rw [parseTypeValue_duration rt s t hn]
  cases rt.ParseDuration s <;> simp [GoError.Is]

/-- The iteration over a leaf for which a string is resolved: the variable is
present, or the field is not required. -/
theorem parseLeaf_resolved (rt : Runtime) (e : Envee) (env : Environ) (pre : String)
    (tag : StructTag) (t : RType) (f : field) (hf : newField tag = .ok f)
    (hres : env (e.pfx ++ pre ++ f.name) ≠ none ∨ f.isRequired = false) :
    parseLeaf rt e env pre tag t =
      ([e.pfx ++ pre ++ f.name],
        match convertValue rt t (resolved env (e.pfx ++ pre ++ f.name) f.defValue) with
        | .ok x => Set rt t x
        | .error err => .returned (.wrap "%s: %w" [f.name] err)) := by
  rw [parseLeaf_ok rt e env pre tag t f hf]
  have : ((env (e.pfx ++ pre ++ f.name)).isNone && f.isRequired) = false := by
    rcases hres with h | h
    · cases hv : env (e.pfx ++ pre ++ f.name) with
      | none => exact absurd hv h
      | some v => rfl
    · simp [h]
  simp [this]

/-- C15, counterexample: a `complex128` field with `env:"C"` and `C` unset.
`Parse` returns the `ErrMissingRequired` error, which does not match
`ErrUnsupportedType`. -/
theorem unsupported_field_missing_first :
    (New.Parse rt64 (environ [])
        (.leaf "C" [("env", "C")] complex128 ⟨complex128, .zero⟩ .nil)).status =
        .error (.wrap "%w: %q" ["C"] (.sentinel .ErrMissingRequired)) ∧
      (GoError.wrap "%w: %q" ["C"] (.sentinel .ErrMissingRequired)).Is .ErrUnsupportedType
        = false :=
  ⟨by decide, rfl⟩

/-- C15, as the code has it: for a type that is neither named `Duration` nor
of a supported primitive kind, `parseTypeValue` and `parseKindValue` return an
error matching `ErrUnsupportedType` for every input string; and when `Parse`
reaches a leaf of such a type whose metadata resolves and for which a string is
resolved (the variable is present, or the field is not required), it returns
an error matching `ErrUnsupportedType`, and the leaf keeps its value. -/
theorem unsupported_type (rt : Runtime) (t : RType) (hn : t.Name ≠ "Duration")
    (hkind : supportedKind t.Kind = false) :
    (∀ v, ∃ err, parseTypeValue rt v t = .error err ∧ err.Is .ErrUnsupportedType = true) ∧
      (∀ v, ∃ err, parseKindValue rt v t.Kind = .error err ∧
        err.Is .ErrUnsupportedType = true) ∧
      ∀ (e : Envee) (env : Environ) (o : Struct) (k : Nat) (l : LeafView) (f : field),
        o.leaves[k]? = some l → l.typ = t → Reaches rt e env o k = true →
        newField l.Tag = .ok f →
        (env (e.pfx ++ l.nestedPrefix ++ f.name) ≠ none ∨ f.isRequired = false) →
        ∃ err, (e.Parse rt env o).status = .error err ∧ err.Is .ErrUnsupportedType = true ∧
          (e.Parse rt env o).target.leaves.drop k = o.leaves.drop k := by
  refine ⟨?_, ?_, ?_⟩
  · intro v
    exact ⟨_, parseTypeValue_other rt v t hn, rfl⟩
  · intro v
    exact ⟨_, parseKindValue_unsupported rt v t.Kind hkind, rfl⟩
  · intro e env o k l f hk ht hr hf hres
    subst ht
    have hs : (parseLeaf rt e env l.nestedPrefix l.Tag l.typ).2 =
        .returned (.wrap "%s: %w" [f.name]
          (.wrap "%w: %s:%q"
            [kindName l.typ.Kind, resolved env (e.pfx ++ l.nestedPrefix ++ f.name) f.defValue]
            (.sentinel .ErrUnsupportedType))) := by
      rw [parseLeaf_resolved rt e env _ _ _ f hf hres, convertValue_other rt _ _ hn,
        parseKindValue_unsupported rt _ _ hkind]
    obtain ⟨h1, _, h3⟩ := Parse_stop rt e env o k l _ hk hr hs
    refine ⟨_, h1, ?_, h3⟩
    rw [Is_wrapGroups]
    rfl

theorem unsupported_type_witness :
    ∃ err, (New.Parse rt64 (environ [("C", "asd")])
        (.leaf "C" [("env", "C")] complex128 ⟨complex128, .zero⟩ .nil)).status = .error err ∧
      err.Is .ErrUnsupportedType = true ∧
      (New.Parse rt64 (environ [("C", "asd")])
        (.leaf "C" [("env", "C")] complex128 ⟨complex128, .zero⟩ .nil)).target.leaves.drop 0 =
        (Struct.leaf "C" [("env", "C")] complex128 ⟨complex128, .zero⟩ .nil).leaves.drop 0 :=
  (unsupported_type rt64 complex128 (by decide) rfl).2.2 New (environ [("C", "asd")])
    (.leaf "C" [("env", "C")] complex128 ⟨complex128, .zero⟩ .nil) 0
    ⟨[], "C", [("env", "C")], complex128, ⟨complex128, .zero⟩⟩ ⟨"C", "", false⟩
    (by decide) rfl (by decide) rfl (Or.inl (by decide))

/-- C16: `parseTypeValue` looks at the name of the destination type only. For
a type named `Duration` the result is that of `time.ParseDuration` on the
string, as a `time.Duration` or as its error, which never matches
`ErrUnsupportedType`; so where `time.ParseDuration` reads `"3s"` as three
seconds the result is 3 000 000 000 ns, and where it rejects `"3"` the result
is an error that does not match `ErrUnsupportedType`. For every other type and
every string the result is an error matching `ErrUnsupportedType`. -/
theorem parseTypeValue_dispatch (rt : Runtime) (v : String) (t : RType) :
    (∀ t' : RType, t'.Name = t.Name → parseTypeValue rt v t' = parseTypeValue rt v t) ∧
      (t.Name = "Duration" →
        parseTypeValue rt v t =
          (match rt.ParseDuration v with
            | .ok d => .ok ⟨timeDuration, .int d⟩
            | .error msg => .error (.duration msg)) ∧
        ∀ err, parseTypeValue rt v t = .error err → err.Is .ErrUnsupportedType = false) ∧
      (t.Name = "Duration" → rt.ParseDuration "3s" = .ok 3000000000 →
        parseTypeValue rt "3s" t = .ok ⟨timeDuration, .int 3000000000⟩) ∧
      (t.Name = "Duration" → ∀ msg, rt.ParseDuration "3" = .error msg →
        ∃ err, parseTypeValue rt "3" t = .error err ∧ err.Is .ErrUnsupportedType = false) ∧
      (t.Name ≠ "Duration" →
        ∃ err, parseTypeValue rt v t = .error err ∧ err.Is .ErrUnsupportedType = true) := by
  refine ⟨?_, ?_, ?_, ?_, ?_⟩
  · intro t' h
    simp [parseTypeValue, h]
  · intro hn
    refine ⟨parseTypeValue_duration rt v t hn, ?_⟩
    intro err herr
    rw [parseTypeValue_duration rt v t hn] at herr
    cases hd : rt.ParseDuration v with
    | ok d => rw [hd] at herr; cases herr
    | error msg =>
      rw [hd] at herr
      injection herr with herr
      subst herr
      rfl
  · intro hn h3
    rw [parseTypeValue_duration rt "3s" t hn, h3]
  · intro hn msg h3
    rw [parseTypeValue_duration rt "3" t hn, h3]
    exact ⟨_, rfl, rfl⟩
  · intro hn
    exact ⟨_, parseTypeValue_other rt v t hn, rfl⟩

theorem parseTypeValue_dispatch_witness :
    parseTypeValue rt64 "3s" timeDuration = .ok ⟨timeDuration, .int 3000000000⟩ ∧
      ∃ err, parseTypeValue rt64 "3" timeDuration = .error err ∧
        err.Is .ErrUnsupportedType = false :=
  ⟨(parseTypeValue_dispatch rt64 "3s" timeDuration).2.2.1 rfl rfl,
    (parseTypeValue_dispatch rt64 "3" timeDuration).2.2.2.1 rfl _ rfl⟩

/-- C17: when `Parse` reaches a leaf whose type is named `Duration`, with a
resolved string that `time.ParseDuration` rejects, the iteration returns that
error with the field's name in front, whatever the conversion by kind would
give for the string; `Parse` returns it (inside one layer for each enclosing
nested field) and the leaf keeps its value. The conversion of lines 64-79 is
`parseTypeValue` alone for a type named `Duration` and `parseKindValue` for
every other type, and an error of `parseTypeValue` matches
`ErrUnsupportedType` exactly when the type is not named `Duration`. -/
theorem duration_failure_is_hard (rt : Runtime) (e : Envee) (env : Environ) (o : Struct)
    (k : Nat) (l : LeafView) (f : field) (msg : String) (hk : o.leaves[k]? = some l)
    (hr : Reaches rt e env o k = true) (hf : newField l.Tag = .ok f)
    (hn : l.typ.Name = "Duration")
    (hres : env (e.pfx ++ l.nestedPrefix ++ f.name) ≠ none ∨ f.isRequired = false)
    (hbad : rt.ParseDuration (resolved env (e.pfx ++ l.nestedPrefix ++ f.name) f.defValue) =
      .error msg) :
    parseLeaf rt e env l.nestedPrefix l.Tag l.typ =
        ([e.pfx ++ l.nestedPrefix ++ f.name],
          .returned (.wrap "%s: %w" [f.name] (.duration msg))) ∧
      (e.Parse rt env o).status =
        .error (wrapGroups l.groups (.wrap "%s: %w" [f.name] (.duration msg))) ∧
      (e.Parse rt env o).target.leaves.drop k = o.leaves.drop k ∧
      (∀ (t : RType) (s : String),
        convertValue rt t s =
          if t.Name = "Duration" then parseTypeValue rt s t else parseKindValue rt s t.Kind) ∧
      (∀ (t : RType) (s : String) (err : GoError), parseTypeValue rt s t = .error err →
        (err.Is .ErrUnsupportedType = true ↔ t.Name ≠ "Duration")) := by
  have hp : parseLeaf rt e env l.nestedPrefix l.Tag l.typ =
      ([e.pfx ++ l.nestedPrefix ++ f.name],
        .returned (.wrap "%s: %w" [f.name] (.duration msg))) := by
    rw [parseLeaf_resolved rt e env _ _ _ f hf hres, convertValue_duration rt _ _ hn,
      parseTypeValue_duration rt _ _ hn, hbad]
  obtain ⟨h1, _, h3⟩ := Parse_stop rt e env o k l _ hk hr (by rw [hp])
  refine ⟨hp, h1, h3, ?_, ?_⟩
  · intro t s
    by_cases ht : t.Name = "Duration"
    · simp [ht, convertValue_duration rt t s ht]
    · simp [ht, convertValue_other rt t s ht]
  · intro t s err herr
    rcases parseTypeValue_error rt s t err herr with ⟨h, m, rfl⟩ | ⟨h, rfl⟩
    · simp [GoError.Is, h]
    · simp [GoError.Is, h]

theorem duration_failure_is_hard_witness :
    parseKindValue rt64 "3" Kind.Int64 = .ok ⟨predeclared .Int64, .int 3⟩ ∧
      (New.Parse rt64 (environ [("TTL", "3")])
        (.leaf "TTL" [("env", "TTL")] timeDuration ⟨timeDuration, .int 0⟩ .nil)).status =
        .error (wrapGroups [] (.wrap "%s: %w" ["TTL"] (.duration "time: invalid duration 3"))) ∧
      (New.Parse rt64 (environ [("TTL", "3")])
        (.leaf "TTL" [("env", "TTL")] timeDuration ⟨timeDuration, .int 0⟩ .nil)).target.leaves.drop 0
        = (Struct.leaf "TTL" [("env", "TTL")] timeDuration ⟨timeDuration, .int 0⟩ .nil).leaves.drop 0 :=
  ⟨rfl,
    (duration_failure_is_hard rt64 New (environ [("TTL", "3")])
      (.leaf "TTL" [("env", "TTL")] timeDuration ⟨timeDuration, .int 0⟩ .nil) 0
      ⟨[], "TTL", [("env", "TTL")], timeDuration, ⟨timeDuration, .int 0⟩⟩ ⟨"TTL", "", false⟩
      "time: invalid duration 3" (by decide) (by decide) rfl rfl (Or.inl (by decide))
      rfl).2.1,
    (duration_failure_is_hard rt64 New (environ [("TTL", "3")])
      (.leaf "TTL" [("env", "TTL")] timeDuration ⟨timeDuration, .int 0⟩ .nil) 0
      ⟨[], "TTL", [("env", "TTL")], timeDuration, ⟨timeDuration, .int 0⟩⟩ ⟨"TTL", "", false⟩
      "time: invalid duration 3" (by decide) (by decide) rfl rfl (Or.inl (by decide))
      rfl).2.2.1⟩

/-- C18, the failing inputs: a field of the user-defined type `MyInt` (kind
`int`) with `PORT=5`, and a field of a user-defined string type named
`Duration` with `TTL=3s`. The conversions succeed with values of the types
`int` and `time.Duration`, which are not the types of the fields, and
`reflect.Value.Set` panics. -/
theorem named_type_assignment_panics :
    parseKindValue rt64 "5" myInt.Kind = .ok ⟨predeclared .Int, .int 5⟩ ∧
      (New.Parse rt64 (environ [("PORT", "5")])
        (.leaf "Port" [("env", "PORT")] myInt ⟨myInt, .int 0⟩ .nil)).status = .panic ∧
      parseTypeValue rt64 "3s" myDuration = .ok ⟨timeDuration, .int 3000000000⟩ ∧
      (New.Parse rt64 (environ [("TTL", "3s")])
        (.leaf "TTL" [("env", "TTL")] myDuration ⟨myDuration, .str ""⟩ .nil)).status = .panic :=
  ⟨rfl, by decide, rfl, by decide⟩

/-- `parse` changes values only. -/
theorem parse_blank (rt : Runtime) (e : Envee) (env : Environ) (s : Struct) :
    ∀ pre : String, (parse rt e env s pre).target.blank = s.blank := by
  induction s with
  | nil => intro pre; rfl
  | leaf n tag t v rest ih =>
    intro pre
    simp only [parse]
    rcases h : parseLeaf rt e env pre tag t with ⟨ks, st⟩
    cases st with
    | assigned x => simp [Struct.blank, ih pre]
    | returned err => simp [Struct.blank]
    | panicked => simp [Struct.blank]
  | nested n tag inner rest ihi ihr =>
    intro pre
    simp only [parse]
    cases h : (parse rt e env inner (pre ++ StructTag.Get tag "prefix")).status <;>
      simp [Struct.blank, ihi, ihr]

/-- How `parse` ends and what it looks up does not depend on the values the
leaves hold, and neither does the structure it leaves behind when it returns
`nil`. -/
theorem parse_indep (rt : Runtime) (e : Envee) (env : Environ) (s : Struct) :
    ∀ (s' : Struct) (pre : String), s.blank = s'.blank →
      (parse rt e env s' pre).status = (parse rt e env s pre).status ∧
        (parse rt e env s' pre).lookups = (parse rt e env s pre).lookups ∧
        ((parse rt e env s pre).status = .ok →
          (parse rt e env s' pre).target = (parse rt e env s pre).target) := by
  induction s with
  | nil =>
    intro s' pre h
    cases s' <;> simp [Struct.blank] at h
    simp
  | leaf n tag t v rest ih =>
    intro s' pre h
    cases s' with
    | nil => simp [Struct.blank] at h
    | nested n' tag' inner' rest' => simp [Struct.blank] at h
    | leaf n' tag' t' v' rest' =>
      simp only [Struct.blank, Struct.leaf.injEq] at h
      obtain ⟨rfl, rfl, rfl, _, hrest⟩ := h
      obtain ⟨h1, h2, h3⟩ := ih rest' pre hrest
      simp only [parse]
      rcases hp : parseLeaf rt e env pre tag t with ⟨ks, st⟩
      cases st with
      | assigned x =>
        refine ⟨h1, by simp [h2], ?_⟩
        intro hok
        simp [h3 hok]
      | returned err => simp
      | panicked => simp
  | nested n tag inner rest ihi ihr =>
    intro s' pre h
    cases s' with
    | nil => simp [Struct.blank] at h
    | leaf n' tag' t' v' rest' => simp [Struct.blank] at h
    | nested n' tag' inner' rest' =>
      simp only [Struct.blank, Struct.nested.injEq] at h
      obtain ⟨rfl, rfl, hinner, hrest⟩ := h
      obtain ⟨i1, i2, i3⟩ := ihi inner' (pre ++ StructTag.Get tag "prefix") hinner
      obtain ⟨r1, r2, r3⟩ := ihr rest' pre hrest
      simp only [parse]
      rw [i1]
      cases hs : (parse rt e env inner (pre ++ StructTag.Get tag "prefix")).status with
      | ok =>
        refine ⟨r1, by simp [i2, r2], ?_⟩
        intro hok
        simp only at hok
        simp [i3 hs, r3 hok]
      | error err => simp [i2]
      | panic => simp [i2]

/-- C19: a successful `Parse` overwrites every leaf. On another target with
the same fields, tags and types, whatever its leaves hold, `Parse` with the
same prefix and environment also returns no error and leaves the same
structure behind; in particular, run again on its own result, `Parse` returns
no error and the structure is unchanged. -/
theorem Parse_overwrites (rt : Runtime) (e : Envee) (env : Environ) (o o' : Struct)
    (hsame : o.blank = o'.blank) (hok : (e.Parse rt env o).status = .ok) :
    (e.Parse rt env o').status = .ok ∧
      (e.Parse rt env o').target = (e.Parse rt env o).target ∧
      (e.Parse rt env (e.Parse rt env o).target).status = .ok ∧
      (e.Parse rt env (e.Parse rt env o).target).target = (e.Parse rt env o).target := by
  obtain ⟨h1, _, h3⟩ := parse_indep rt e env o o' "" hsame
  have hb : o.blank = (e.Parse rt env o).target.blank := (parse_blank rt e env o "").symm
  obtain ⟨g1, _, g3⟩ := parse_indep rt e env o (e.Parse rt env o).target "" hb
  exact ⟨h1.trans hok, h3 hok, g1.trans hok, g3 hok⟩

theorem Parse_overwrites_witness :
    ((New.SetPrefix "APP_").Parse rt64 (environ [("APP_SHUTDOWN_PERIOD", "9s")])
        ((New.SetPrefix "APP_").Parse rt64 (environ [("APP_SHUTDOWN_PERIOD", "9s")])
          testConfigDuration).target).status = .ok ∧
      ((New.SetPrefix "APP_").Parse rt64 (environ [("APP_SHUTDOWN_PERIOD", "9s")])
        ((New.SetPrefix "APP_").Parse rt64 (environ [("APP_SHUTDOWN_PERIOD", "9s")])
          testConfigDuration).target).target =
        ((New.SetPrefix "APP_").Parse rt64 (environ [("APP_SHUTDOWN_PERIOD", "9s")])
          testConfigDuration).target :=
  (Parse_overwrites rt64 (New.SetPrefix "APP_") (environ [("APP_SHUTDOWN_PERIOD", "9s")])
    testConfigDuration testConfigDuration rfl (by decide)).2.2

/-! ### Decimal numerals and the parsers of `strconv` -/

theorem digitChar_digit (d : Nat) (hd : d < 10) :
    ('0' ≤ Nat.digitChar d ∧ Nat.digitChar d ≤ '9') ∧
      (Nat.digitChar d).toNat - '0'.toNat = d := by
  interval_cases d <;> decide

theorem le_decimalValue : ∀ (cs : List Char) (n : Nat), n ≤ decimalValue cs n := by
  intro cs
  induction cs with
  | nil => intro n; exact Nat.le_refl n
  | cons c cs ih =>
    intro n
    have := ih (n * 10 + (c.toNat - '0'.toNat))
    simp only [decimalValue]
    omega

/-- On digits the loop of `ParseUint` yields the value, unless it leaves the
range. -/
theorem digits_of_all (b : Nat) :
    ∀ (cs : List Char) (n : Nat), (∀ c ∈ cs, '0' ≤ c ∧ c ≤ '9') → n < 2 ^ b →
      strconv.digits b cs n =
        if decimalValue cs n < 2 ^ b then .ok (decimalValue cs n) else .error .outOfRange := by
  intro cs
  induction cs with
  | nil => intro n _ hn; simp [strconv.digits, decimalValue, hn]
  | cons c cs ih =>
    intro n hall hn
    have hc := hall c (by simp)
    have hrest : ∀ c' ∈ cs, '0' ≤ c' ∧ c' ≤ '9' := fun c' h' => hall c' (by simp [h'])
    simp only [strconv.digits, hc, and_self, if_true, decimalValue]
    by_cases h1 : n * 10 + (c.toNat - '0'.toNat) < 2 ^ b
    · rw [if_pos h1]
      exact ih _ hrest h1
    · have := le_decimalValue cs (n * 10 + (c.toNat - '0'.toNat))
      have h2 : ¬ decimalValue cs (n * 10 + (c.toNat - '0'.toNat)) < 2 ^ b := by omega
      rw [if_neg h1, if_neg h2]

/-- What the loop accepts are digits, and the result is their value, in
range. -/
theorem digits_ok (b : Nat) :
    ∀ (cs : List Char) (n r : Nat), strconv.digits b cs n = .ok r →
      (∀ c ∈ cs, '0' ≤ c ∧ c ≤ '9') ∧ r = decimalValue cs n ∧ (cs ≠ [] → r < 2 ^ b) := by
  intro cs
  induction cs with
  | nil =>
    intro n r h
    simp only [strconv.digits] at h
    injection h with h
    simp [decimalValue, h]
  | cons c cs ih =>
    intro n r h
    simp only [strconv.digits] at h
    split at h
    · rename_i hc
      split at h
      · rename_i h1
        obtain ⟨ha, hv, hr⟩ := ih _ r h
        refine ⟨?_, by simpa [decimalValue] using hv, ?_⟩
        · intro c' hc'
          rcases List.mem_cons.mp hc' with rfl | hm
          · exact hc
          · exact ha c' hm
        · intro _
          cases cs with
          | nil =>
            simp only [decimalValue] at hv
            omega
          | cons c2 cs2 => exact hr (by simp)
      · cases h
    · cases h

theorem isDigits_iff (cs : List Char) :
    isDigits cs = true ↔ cs ≠ [] ∧ ∀ c ∈ cs, '0' ≤ c ∧ c ≤ '9' := by
  cases cs with
  | nil => simp [isDigits]
  | cons c cs => simp [isDigits, List.all_eq_true]

/-- `ParseUint` accepts exactly the strings of digits whose value fits
`bitSize` bits, and returns that value. -/
theorem parseUintCause_ok_iff (cs : List Char) (b n : Nat) :
    strconv.parseUintCause cs b = .ok n ↔
      isDigits cs = true ∧ decimalValue cs 0 = n ∧ n < 2 ^ b := by
  rw [isDigits_iff]
  cases cs with
  | nil => simp [strconv.parseUintCause]
  | cons c cs =>
    simp only [strconv.parseUintCause]
    constructor
    · intro h
      obtain ⟨ha, hv, hr⟩ := digits_ok b (c :: cs) 0 n h
      exact ⟨⟨by simp, ha⟩, hv.symm, hr (by simp)⟩
    · rintro ⟨⟨_, ha⟩, hv, hr⟩
      rw [digits_of_all b (c :: cs) 0 ha (Nat.two_pow_pos b), hv]
      simp [hr]

theorem toDigitsCore_spec :
    ∀ (fuel n : Nat) (ds : List Char), n < fuel → (∀ c ∈ ds, '0' ≤ c ∧ c ≤ '9') →
      (∀ c ∈ Nat.toDigitsCore 10 fuel n ds, '0' ≤ c ∧ c ≤ '9') ∧
        decimalValue (Nat.toDigitsCore 10 fuel n ds) 0 = decimalValue ds n ∧
        Nat.toDigitsCore 10 fuel n ds ≠ [] := by
  intro fuel
  induction fuel with
  | zero => intro n ds h; omega
  | succ fuel ih =>
    intro n ds hn hds
    have hd := digitChar_digit (n % 10) (Nat.mod_lt n (by decide))
    have hds' : ∀ c ∈ Nat.digitChar (n % 10) :: ds, '0' ≤ c ∧ c ≤ '9' := by
      intro c hc
      rcases List.mem_cons.mp hc with rfl | hm
      · exact hd.1
      · exact hds c hm
    simp only [Nat.toDigitsCore]
    by_cases h0 : n / 10 = 0
    · simp only [h0, if_true]
      refine ⟨hds', ?_, by simp⟩
      simp only [decimalValue, hd.2, Nat.zero_mul, Nat.zero_add]
      have : n % 10 = n := Nat.mod_eq_of_lt (by omega)
      rw [this]
    · simp only [h0, if_false]
      obtain ⟨h1, h2, h3⟩ := ih (n / 10) (Nat.digitChar (n % 10) :: ds) (by omega) hds'
      refine ⟨h1, ?_, h3⟩
      rw [h2]
      simp only [decimalValue, hd.2]
      have : n / 10 * 10 + n % 10 = n := by omega
      rw [this]

theorem toDigits_spec (n : Nat) :
    isDigits (Nat.toDigits 10 n) = true ∧ decimalValue (Nat.toDigits 10 n) 0 = n := by
  obtain ⟨h1, h2, h3⟩ := toDigitsCore_spec (n + 1) n [] (by omega) (by simp)
  exact ⟨(isDigits_iff _).mpr ⟨h3, h1⟩, by simpa [decimalValue] using h2⟩

theorem ParseUint_format (n b : Nat) (hn : n < 2 ^ b) :
    strconv.ParseUint (strconv.FormatUint n) b = .ok n := by
  have h : strconv.parseUintCause (strconv.FormatUint n).data b = .ok n :=
    (parseUintCause_ok_iff _ b n).mpr ⟨(toDigits_spec n).1, (toDigits_spec n).2, hn⟩
  simp [strconv.ParseUint, h]

theorem digit_not_sign (c : Char) (hc : '0' ≤ c ∧ c ≤ '9') : ¬ (c = '+' ∨ c = '-') := by
  rintro (h | h) <;> subst h <;> exact absurd hc.1 (by decide)

theorem two_pow_pred_lt (b : Nat) (hb : 0 < b) : 2 ^ (b - 1) < 2 ^ b := by
  obtain ⟨k, rfl⟩ : ∃ k, b = k + 1 := ⟨b - 1, by omega⟩
  simp only [Nat.add_sub_cancel, Nat.pow_succ]
  have := Nat.two_pow_pos k
  omega

/-- The check of `ParseInt` against `1 << (bitSize-1)` after `ParseUint` read
the digits `body` as `un`. -/
theorem parseInt_after (body : List Char) (b : Nat) (hb : 0 < b) (neg : Bool) (v : Int) :
    (match strconv.parseUintCause body b with
      | .error e => (.error e : Except NumCause Int)
      | .ok un =>
        if !neg && decide (2 ^ (b - 1) ≤ un) then .error .outOfRange
        else if neg && decide (2 ^ (b - 1) < un) then .error .outOfRange
        else .ok (if neg then - (un : Int) else (un : Int))) = .ok v ↔
      isDigits body = true ∧
        (if neg then - (decimalValue body 0 : Int) else (decimalValue body 0 : Int)) = v ∧
        - (2 ^ (b - 1) : Int) ≤ v ∧ v < (2 ^ (b - 1) : Int) := by
  have hlt := two_pow_pred_lt b hb
  have hpos : (0 : Int) < (2 ^ (b - 1) : Int) := by positivity
  constructor
  · intro h
    cases hu : strconv.parseUintCause body b with
    | error e => rw [hu] at h; cases h
    | ok un =>
      rw [hu] at h
      obtain ⟨hd, hv, _⟩ := (parseUintCause_ok_iff body b un).mp hu
      subst hv
      cases neg with
      | false =>
        simp only [Bool.not_false, Bool.true_and, Bool.false_and, Bool.false_eq_true, if_false,
          decide_eq_true_eq] at h
        split at h
        · cases h
        · rename_i hc
          injection h with h
          subst h
          refine ⟨hd, rfl, ?_, ?_⟩
          · have : (0 : Int) ≤ (decimalValue body 0 : Int) := Int.ofNat_nonneg _
            omega
          · have : decimalValue body 0 < 2 ^ (b - 1) := by omega
            exact_mod_cast this
      | true =>
        simp only [Bool.not_true, Bool.false_and, Bool.false_eq_true, if_false, Bool.true_and,
          decide_eq_true_eq, if_true] at h
        split at h
        · cases h
        · rename_i hc
          injection h with h
          subst h
          refine ⟨hd, rfl, ?_, ?_⟩
          · have : decimalValue body 0 ≤ 2 ^ (b - 1) := by omega
            have : (decimalValue body 0 : Int) ≤ (2 ^ (b - 1) : Int) := by exact_mod_cast this
            omega
          · have : (0 : Int) ≤ (decimalValue body 0 : Int) := Int.ofNat_nonneg _
            omega
  · rintro ⟨hd, hv, hlo, hhi⟩
    cases neg with
    | false =>
      simp only [Bool.false_eq_true, if_false] at hv
      subst hv
      have hun : decimalValue body 0 < 2 ^ (b - 1) := by exact_mod_cast hhi
      have hu := (parseUintCause_ok_iff body b _).mpr ⟨hd, rfl, by omega⟩
      rw [hu]
      simp [Nat.not_le.mpr hun]
    | true =>
      simp only [if_true] at hv
      subst hv
      have hun : decimalValue body 0 ≤ 2 ^ (b - 1) := by
        have : (decimalValue body 0 : Int) ≤ (2 ^ (b - 1) : Int) := by omega
        exact_mod_cast this
      have hu := (parseUintCause_ok_iff body b _).mpr ⟨hd, rfl, by omega⟩
      rw [hu]
      simp [Nat.not_lt.mpr hun]

/-- `ParseInt` accepts exactly the signed numerals whose value lies in the
signed range of `bitSize` bits, and returns that value. -/
theorem parseIntCause_ok_iff (cs : List Char) (b : Nat) (hb : 0 < b) (v : Int) :
    strconv.parseIntCause cs b = .ok v ↔
      isNumeral cs = true ∧ numeralValue cs = v ∧
        - (2 ^ (b - 1) : Int) ≤ v ∧ v < (2 ^ (b - 1) : Int) := by
  cases cs with
  | nil => simp [strconv.parseIntCause, isNumeral]
  | cons c rest =>
    simp only [strconv.parseIntCause, isNumeral, numeralValue]
    by_cases hm : c = '-'
    · subst hm
      simpa using parseInt_after rest b hb true v
    · by_cases hp : c = '+'
      · subst hp
        simpa using parseInt_after rest b hb false v
      · simpa [hm, hp] using parseInt_after (c :: rest) b hb false v

theorem FormatInt_spec (v : Int) :
    isNumeral (strconv.FormatInt v).data = true ∧ numeralValue (strconv.FormatInt v).data = v := by
  obtain ⟨hd, hv⟩ := toDigits_spec v.natAbs
  unfold strconv.FormatInt
  by_cases hneg : v < 0
  · simp only [hneg, if_true, isNumeral, numeralValue, or_true, hd, hv, true_and]
    omega
  · simp only [hneg, if_false]
    rcases hl : Nat.toDigits 10 v.natAbs with _ | ⟨c, rest⟩
    · rw [hl] at hd; simp [isDigits] at hd
    · rw [hl] at hd hv
      have hc : '0' ≤ c ∧ c ≤ '9' := ((isDigits_iff _).mp hd).2 c (by simp)
      have hns := digit_not_sign c hc
      have h1 : ¬ c = '-' := fun h => hns (Or.inr h)
      have h2 : ¬ c = '+' := fun h => hns (Or.inl h)
      simp only [isNumeral, numeralValue, hns, h1, h2, if_false, hd, hv, true_and]
      exact ⟨by simp, Int.natAbs_of_nonneg (Int.not_lt.mp hneg)⟩

theorem ParseInt_format (v : Int) (b : Nat) (hb : 0 < b) (hlo : - (2 ^ (b - 1) : Int) ≤ v)
    (hhi : v < (2 ^ (b - 1) : Int)) :
    strconv.ParseInt (strconv.FormatInt v) b = .ok v := by
  have h := (parseIntCause_ok_iff (strconv.FormatInt v).data b hb v).mpr
    ⟨(FormatInt_spec v).1, (FormatInt_spec v).2, hlo, hhi⟩
  simp [strconv.ParseInt, h]

theorem Atoi_format (rt : Runtime) (v : Int) (hb : 0 < rt.IntSize)
    (hlo : - (2 ^ (rt.IntSize - 1) : Int) ≤ v) (hhi : v < (2 ^ (rt.IntSize - 1) : Int)) :
    strconv.Atoi rt (strconv.FormatInt v) = .ok v := by
  have h := (parseIntCause_ok_iff (strconv.FormatInt v).data rt.IntSize hb v).mpr
    ⟨(FormatInt_spec v).1, (FormatInt_spec v).2, hlo, hhi⟩
  simp [strconv.Atoi, h]

theorem map_ok {α β : Type} (r : Except GoError α) (g : α → β) (x : β)
    (h : r.map g = .ok x) : ∃ a, r = .ok a ∧ x = g a := by
  cases r with
  | ok a => simp only [Except.map] at h; injection h with h; exact ⟨a, rfl, h.symm⟩
  | error e => simp [Except.map] at h

/-- A value converted by kind has the predeclared type of the kind. -/
theorem parseKindValue_typ (rt : Runtime) (v : String) (p : Kind) (x : Value)
    (h : parseKindValue rt v p = .ok x) : x.typ = predeclared p := by
  cases p <;> simp only [parseKindValue] at h <;>
    first
    | (cases h; done)
    | (injection h with h; rw [← h])
    | (obtain ⟨a, _, rfl⟩ := map_ok _ _ _ h; rfl)

theorem kindName_ne_Duration (p : Kind) : (predeclared p).Name ≠ "Duration" := by
  cases p <;> decide

/-- The conversion by kind into a field of the predeclared type of the kind is
assigned. -/
theorem Parse_pass_predeclared (rt : Runtime) (e : Envee) (env : Environ) (o : Struct)
    (k : Nat) (l : LeafView) (f : field) (K : Kind) (x : Value)
    (hk : o.leaves[k]? = some l) (ht : l.typ = predeclared K)
    (hr : Reaches rt e env o k = true) (hf : newField l.Tag = .ok f)
    (hres : env (e.pfx ++ l.nestedPrefix ++ f.name) ≠ none ∨ f.isRequired = false)
    (hx : parseKindValue rt
      (resolved env (e.pfx ++ l.nestedPrefix ++ f.name) f.defValue) K = .ok x) :
    (e.Parse rt env o).target.leaves[k]? = some (l.withValue x) := by
  apply Parse_pass rt e env o k l x hk hr
  have hn : l.typ.Name ≠ "Duration" := by rw [ht]; exact kindName_ne_Duration K
  have hkind : l.typ.Kind = K := by rw [ht]; rfl
  rw [parseLeaf_resolved rt e env _ _ _ f hf hres, convertValue_other rt _ _ hn, hkind, hx]
  have hxt := parseKindValue_typ rt _ K x hx
  simp [Set, AssignableTo, hxt, ht]

/-- C13, counterexample: on a platform with 64-bit `int` the value 2^32 is a
value of `uint`, and `parseKindValue` rejects its decimal string. -/
theorem uint_round_trip_fails :
    (4294967296 : Nat) < 2 ^ typeWidth rt64 Kind.Uint ∧
      strconv.FormatUint 4294967296 = "4294967296" ∧
      parseKindValue rt64 (strconv.FormatUint 4294967296) Kind.Uint =
        .error (.num "ParseUint" "4294967296" .outOfRange) :=
  ⟨by decide, by decide, rfl⟩

/-- C13, as the code has it: the canonical string of a value converts back to
the value, without error, for every value of `uint8` to `uint64`, of `int` and
`int8` to `int64`, for every string and both booleans, and for the values of
`uint` below 2^32; and when `Parse` reaches a field of the predeclared type of
one of these kinds whose resolved string converts, the field holds the
converted value. -/
theorem round_trip (rt : Runtime) (hint : 0 < rt.IntSize) :
    (∀ K ∈ [Kind.Uint8, .Uint16, .Uint32, .Uint64], ∀ n : Nat, n < 2 ^ typeWidth rt K →
        parseKindValue rt (strconv.FormatUint n) K = .ok ⟨predeclared K, .uint n⟩) ∧
      (∀ n : Nat, n < 2 ^ 32 →
        parseKindValue rt (strconv.FormatUint n) Kind.Uint = .ok ⟨predeclared .Uint, .uint n⟩) ∧
      (∀ K ∈ [Kind.Int, .Int8, .Int16, .Int32, .Int64], ∀ v : Int,
        - (2 ^ (typeWidth rt K - 1) : Int) ≤ v → v < (2 ^ (typeWidth rt K - 1) : Int) →
        parseKindValue rt (strconv.FormatInt v) K = .ok ⟨predeclared K, .int v⟩) ∧
      (∀ s : String, parseKindValue rt s Kind.String = .ok ⟨predeclared .String, .str s⟩) ∧
      (∀ b : Bool,
        parseKindValue rt (strconv.FormatBool b) Kind.Bool = .ok ⟨predeclared .Bool, .bool b⟩) ∧
      ∀ (e : Envee) (env : Environ) (o : Struct) (k : Nat) (l : LeafView) (f : field)
        (K : Kind) (s : String) (x : Value),
        K ∈ [Kind.Int, .Int8, .Int16, .Int32, .Int64, .Uint, .Uint8, .Uint16, .Uint32, .Uint64,
          .String, .Bool] →
        o.leaves[k]? = some l → l.typ = predeclared K → Reaches rt e env o k = true →
        newField l.Tag = .ok f → env (e.pfx ++ l.nestedPrefix ++ f.name) = some s →
        parseKindValue rt s K = .ok x →
        (e.Parse rt env o).target.leaves[k]? = some (l.withValue x) := by
  refine ⟨?_, ?_, ?_, fun s => rfl, ?_, ?_⟩
  · intro K hK n hn
    simp only [List.mem_cons, List.mem_singleton, List.mem_nil_iff, or_false] at hK
    rcases hK with rfl | rfl | rfl | rfl
    · have h := ParseUint_format n 8 hn
      simp only [parseKindValue, h, Except.map]
    · have h := ParseUint_format n 16 hn
      simp only [parseKindValue, h, Except.map]
    · have h := ParseUint_format n 32 hn
      simp only [parseKindValue, h, Except.map]
    · have h := ParseUint_format n 64 hn
      simp only [parseKindValue, h, Except.map]
  · intro n hn
    simp only [parseKindValue, ParseUint_format n 32 hn, Except.map]
  · intro K hK v hlo hhi
    simp only [List.mem_cons, List.mem_singleton, List.mem_nil_iff, or_false] at hK
    rcases hK with rfl | rfl | rfl | rfl | rfl
    · have h := Atoi_format rt v hint hlo hhi
      simp only [parseKindValue, h, Except.map]
    · have h := ParseInt_format v 8 (by decide) hlo hhi
      simp only [parseKindValue, h, Except.map]
    · have h := ParseInt_format v 16 (by decide) hlo hhi
      simp only [parseKindValue, h, Except.map]
    · have h := ParseInt_format v 32 (by decide) hlo hhi
      simp only [parseKindValue, h, Except.map]
    · have h := ParseInt_format v 64 (by decide) hlo hhi
      simp only [parseKindValue, h, Except.map]
  · intro b
    cases b <;> rfl
  · intro e env o k l f K s x _ hk ht hr hf hpres hx
    have hres : env (e.pfx ++ l.nestedPrefix ++ f.name) ≠ none ∨ f.isRequired = false :=
      Or.inl (by rw [hpres]; simp)
    have hrs : resolved env (e.pfx ++ l.nestedPrefix ++ f.name) f.defValue = s := by
      simp [resolved, hpres]
    exact Parse_pass_predeclared rt e env o k l f K x hk ht hr hf hres (by rw [hrs]; exact hx)

theorem round_trip_witness :
    parseKindValue rt64 (strconv.FormatInt (-128)) Kind.Int8 =
        .ok ⟨predeclared .Int8, .int (-128)⟩ ∧
      strconv.FormatInt (-128) = "-128" ∧
      parseKindValue rt64 (strconv.FormatUint 8) Kind.Uint = .ok ⟨predeclared .Uint, .uint 8⟩ :=
  ⟨(round_trip rt64 (by decide)).2.2.1 Kind.Int8 (by decide) (-128) (by decide) (by decide),
    by decide, (round_trip rt64 (by decide)).2.1 8 (by decide)⟩

/-- A conversion through `ParseUint`: accepted exactly on digits whose value
fits, with that value; an error of `ParseUint` otherwise. -/
theorem uint_conversion (K : Kind) (s : String) (b : Nat) :
    (∀ x, ((strconv.ParseUint s b).map fun i => (⟨predeclared K, .uint i⟩ : Value)) = .ok x ↔
        (isDigits s.data = true ∧ decimalValue s.data 0 < 2 ^ b ∧
          x = ⟨predeclared K, .uint (decimalValue s.data 0)⟩)) ∧
      (¬ (isDigits s.data = true ∧ decimalValue s.data 0 < 2 ^ b) →
        ∃ c, ((strconv.ParseUint s b).map fun i => (⟨predeclared K, .uint i⟩ : Value)) =
          .error (.num "ParseUint" s c)) := by
  unfold strconv.ParseUint
  cases h : strconv.parseUintCause s.data b with
  | ok n =>
    obtain ⟨hd, hv, hr⟩ := (parseUintCause_ok_iff s.data b n).mp h
    subst hv
    refine ⟨?_, fun hnot => absurd ⟨hd, hr⟩ hnot⟩
    intro x
    simp only [Except.map, Except.ok.injEq]
    constructor
    · intro hx; exact ⟨hd, hr, hx.symm⟩
    · rintro ⟨_, _, hx⟩; exact hx.symm
  | error c =>
    refine ⟨?_, fun _ => ⟨c, rfl⟩⟩
    intro x
    simp only [Except.map]
    constructor
    · intro hx; cases hx
    · rintro ⟨hd, hr, _⟩
      have := (parseUintCause_ok_iff s.data b _).mpr ⟨hd, rfl, hr⟩
      rw [h] at this
      cases this

/-- A conversion through `ParseInt`: accepted exactly on signed numerals whose
value lies in the signed range, with that value; an error of `ParseInt`
otherwise. -/
theorem int_conversion (K : Kind) (s : String) (b : Nat) (hb : 0 < b) :
    (∀ x, ((strconv.ParseInt s b).map fun i => (⟨predeclared K, .int i⟩ : Value)) = .ok x ↔
        (isNumeral s.data = true ∧ - (2 ^ (b - 1) : Int) ≤ numeralValue s.data ∧
          numeralValue s.data < (2 ^ (b - 1) : Int) ∧
          x = ⟨predeclared K, .int (numeralValue s.data)⟩)) ∧
      (¬ (isNumeral s.data = true ∧ - (2 ^ (b - 1) : Int) ≤ numeralValue s.data ∧
          numeralValue s.data < (2 ^ (b - 1) : Int)) →
        ∃ c, ((strconv.ParseInt s b).map fun i => (⟨predeclared K, .int i⟩ : Value)) =
          .error (.num "ParseInt" s c)) := by
  unfold strconv.ParseInt
  cases h : strconv.parseIntCause s.data b with
  | ok v =>
    obtain ⟨hd, hv, hlo, hhi⟩ := (parseIntCause_ok_iff s.data b hb v).mp h
    subst hv
    refine ⟨?_, fun hnot => absurd ⟨hd, hlo, hhi⟩ hnot⟩
    intro x
    simp only [Except.map, Except.ok.injEq]
    constructor
    · intro hx; exact ⟨hd, hlo, hhi, hx.symm⟩
    · rintro ⟨_, _, _, hx⟩; exact hx.symm
  | error c =>
    refine ⟨?_, fun _ => ⟨c, rfl⟩⟩
    intro x
    simp only [Except.map]
    constructor
    · intro hx; cases hx
    · rintro ⟨hd, hlo, hhi, _⟩
      have := (parseIntCause_ok_iff s.data b hb _).mpr ⟨hd, rfl, hlo, hhi⟩
      rw [h] at this
      cases this

/-- C14: for `uint8`, `uint16`, `uint32`, `uint64` (width `w`) and for `uint`
(with `w = 32`), `parseKindValue` accepts a string exactly when it is a
non-empty string of decimal digits whose value is below `2^w`, and returns that
value; for `int8`, `int16`, `int32`, `int64` exactly when it is a numeral with
an optional sign whose value lies in `-2^(w-1) .. 2^(w-1)-1`, and returns that
value; every other string gives an error of `strconv`. When `Parse` reaches a
leaf whose resolved string `parseKindValue` rejects, it returns that error with
the field's name in front, and the leaf keeps the value it had. -/
theorem integer_range_checking (rt : Runtime) :
    (∀ K w, (K, w) ∈ [(Kind.Uint8, 8), (Kind.Uint16, 16), (Kind.Uint32, 32),
          (Kind.Uint64, 64), (Kind.Uint, 32)] → ∀ s : String,
        (∀ x, parseKindValue rt s K = .ok x ↔
          (isDigits s.data = true ∧ decimalValue s.data 0 < 2 ^ w ∧
            x = ⟨predeclared K, .uint (decimalValue s.data 0)⟩)) ∧
        (¬ (isDigits s.data = true ∧ decimalValue s.data 0 < 2 ^ w) →
          ∃ c, parseKindValue rt s K = .error (.num "ParseUint" s c))) ∧
      (∀ K w, (K, w) ∈ [(Kind.Int8, 8), (Kind.Int16, 16), (Kind.Int32, 32),
          (Kind.Int64, 64)] → ∀ s : String,
        (∀ x, parseKindValue rt s K = .ok x ↔
          (isNumeral s.data = true ∧ - (2 ^ (w - 1) : Int) ≤ numeralValue s.data ∧
            numeralValue s.data < (2 ^ (w - 1) : Int) ∧
            x = ⟨predeclared K, .int (numeralValue s.data)⟩)) ∧
        (¬ (isNumeral s.data = true ∧ - (2 ^ (w - 1) : Int) ≤ numeralValue s.data ∧
            numeralValue s.data < (2 ^ (w - 1) : Int)) →
          ∃ c, parseKindValue rt s K = .error (.num "ParseInt" s c))) ∧
      ∀ (e : Envee) (env : Environ) (o : Struct) (k : Nat) (l : LeafView) (f : field)
        (err : GoError),
        o.leaves[k]? = some l → l.typ.Name ≠ "Duration" → Reaches rt e env o k = true →
        newField l.Tag = .ok f →
        (env (e.pfx ++ l.nestedPrefix ++ f.name) ≠ none ∨ f.isRequired = false) →
        parseKindValue rt (resolved env (e.pfx ++ l.nestedPrefix ++ f.name) f.defValue)
          l.typ.Kind = .error err →
        (e.Parse rt env o).status =
            .error (wrapGroups l.groups (.wrap "%s: %w" [f.name] err)) ∧
          (e.Parse rt env o).target.leaves.drop k = o.leaves.drop k := by
  refine ⟨?_, ?_, ?_⟩
  · intro K w hK s
    simp only [List.mem_cons, List.mem_singleton, List.mem_nil_iff, or_false,
      Prod.mk.injEq] at hK
    rcases hK with ⟨rfl, rfl⟩ | ⟨rfl, rfl⟩ | ⟨rfl, rfl⟩ | ⟨rfl, rfl⟩ | ⟨rfl, rfl⟩
    · exact uint_conversion Kind.Uint8 s 8
    · exact uint_conversion Kind.Uint16 s 16
    · exact uint_conversion Kind.Uint32 s 32
    · exact uint_conversion Kind.Uint64 s 64
    · exact uint_conversion Kind.Uint s 32
  · intro K w hK s
    simp only [List.mem_cons, List.mem_singleton, List.mem_nil_iff, or_false,
      Prod.mk.injEq] at hK
    rcases hK with ⟨rfl, rfl⟩ | ⟨rfl, rfl⟩ | ⟨rfl, rfl⟩ | ⟨rfl, rfl⟩
    · exact int_conversion Kind.Int8 s 8 (by decide)
    · exact int_conversion Kind.Int16 s 16 (by decide)
    · exact int_conversion Kind.Int32 s 32 (by decide)
    · exact int_conversion Kind.Int64 s 64 (by decide)
  · intro e env o k l f err hk hn hr hf hres herr
    have hs : (parseLeaf rt e env l.nestedPrefix l.Tag l.typ).2 =
        .returned (.wrap "%s: %w" [f.name] err) := by
      rw [parseLeaf_resolved rt e env _ _ _ f hf hres, convertValue_other rt _ _ hn, herr]
    obtain ⟨h1, _, h3⟩ := Parse_stop rt e env o k l _ hk hr hs
    exact ⟨h1, h3⟩

theorem integer_range_checking_witness :
    (∃ c, parseKindValue rt64 "128" Kind.Int8 = .error (.num "ParseInt" "128" c)) ∧
      (∃ c, parseKindValue rt64 "4294967296" Kind.Uint =
        .error (.num "ParseUint" "4294967296" c)) ∧
      parseKindValue rt64 "-128" Kind.Int8 = .ok ⟨predeclared .Int8, .int (-128)⟩ ∧
      (New.Parse rt64 (environ [("NAME", "n"), ("AGE", "4294967296")]) testConfig).status =
        .error (wrapGroups []
          (.wrap "%s: %w" ["AGE"] (.num "ParseUint" "4294967296" .outOfRange))) ∧
      (New.Parse rt64 (environ [("NAME", "n"), ("AGE", "4294967296")])
        testConfig).target.leaves.drop 1 = testConfig.leaves.drop 1 :=
  ⟨((integer_range_checking rt64).2.1 Kind.Int8 8 (by decide) "128").2 (by decide),
    ((integer_range_checking rt64).1 Kind.Uint 32 (by decide) "4294967296").2 (by decide),
    rfl,
    (integer_range_checking rt64).2.2 New (environ [("NAME", "n"), ("AGE", "4294967296")])
      testConfig 1
      ⟨[], "Age", [("default", "42"), ("env", "AGE")], predeclared .Uint32, zeroOf .Uint32⟩
      ⟨"AGE", "42", false⟩ (.num "ParseUint" "4294967296" .outOfRange)
      (by decide) (by decide) (by decide) rfl (Or.inl (by decide)) rfl⟩

/-! ### Error messages -/

theorem chars_subStruct (quote : String → String) (n : String) (inner : GoError) :
    (GoError.wrap "failed to parse sub struct %q: %w" [n] inner).chars quote =
      "failed to parse sub struct ".data ++ (quote n).data ++ ": ".data ++ inner.chars quote := by
  simp [GoError.chars, Errorf]

theorem chars_missing (quote : String → String) (n : String) (inner : GoError) :
    (GoError.wrap "%w: %q" [n] inner).chars quote =
      inner.chars quote ++ ": ".data ++ (quote n).data := by
  simp [GoError.chars, Errorf]

theorem chars_env (quote : String → String) (v : String) (inner : GoError) :
    (GoError.wrap "%w: env:%q" [v] inner).chars quote =
      inner.chars quote ++ ": env:".data ++ (quote v).data := by
  simp [GoError.chars, Errorf]

theorem chars_field (quote : String → String) (n : String) (inner : GoError) :
    (GoError.wrap "%s: %w" [n] inner).chars quote =
      n.data ++ ": ".data ++ inner.chars quote := by
  simp [GoError.chars, Errorf]

/-- What the message of a leaf's error contains, the message handed on by the
enclosing nested fields contains too. -/
theorem infix_wrapGroups (quote : String → String) (sub : List Char) (err : GoError) :
    ∀ gs : List (String × StructTag), sub <:+: err.chars quote →
      sub <:+: (wrapGroups gs err).chars quote := by
  intro gs
  induction gs with
  | nil => intro h; exact h
  | cons g gs ih =>
    intro h
    simp only [wrapGroups]
    rw [chars_subStruct]
    exact List.IsInfix.trans (ih h)
      ⟨"failed to parse sub struct ".data ++ (quote g.1).data ++ ": ".data, [], by simp⟩

/-- The message handed on by the enclosing nested fields contains the quoted
name of each of them. -/
theorem group_infix_wrapGroups (quote : String → String) (err : GoError) :
    ∀ gs : List (String × StructTag), ∀ g ∈ gs,
      (quote g.1).data <:+: (wrapGroups gs err).chars quote := by
  intro gs
  induction gs with
  | nil => intro g hg; simp at hg
  | cons a gs ih =>
    intro g hg
    simp only [wrapGroups]
    rw [chars_subStruct]
    rcases List.mem_cons.mp hg with rfl | hm
    · exact ⟨"failed to parse sub struct ".data,
        ": ".data ++ (wrapGroups gs err).chars quote, by simp⟩
    · exact List.IsInfix.trans (ih g hm)
        ⟨"failed to parse sub struct ".data ++ (quote a.1).data ++ ": ".data, [], by simp⟩

theorem newField_error_of_env (tags : StructTag) (nameVal : String) (err : GoError)
    (henv : StructTag.Lookup tags "env" = some nameVal) (h : newField tags = .error err) :
    err = .wrap "%w: env:%q" [nameVal] (.sentinel .ErrUnknownTagValue) := by
  rw [newField_eq tags nameVal henv] at h
  split at h
  · cases h
  · split at h
    · cases h
    · split at h
      · cases h
      · injection h with h; exact h.symm
  · injection h with h; exact h.symm

theorem newField_error_no_env (tags : StructTag) (err : GoError)
    (henv : StructTag.Lookup tags "env" = none) (h : newField tags = .error err) :
    err = .sentinel .ErrNotProcessable := by
  simp only [newField, henv] at h
  injection h with h
  exact h.symm

/-- C11, counterexample: a field `Port` without `env` metadata. `Parse`
returns `ErrNotProcessable` as it is, and its message does not contain the
name of the field. -/
theorem not_processable_names_no_field :
    (New.Parse rt64 (environ [("PORT", "1")])
        (.leaf "Port" [("default", "1")] (predeclared .Int) (zeroOf .Int) .nil)).status =
        .error (.sentinel .ErrNotProcessable) ∧
      (GoError.sentinel .ErrNotProcessable).Error plainQuote =
        "not processable, missing required tags" ∧
      ¬ strings.Contains ((GoError.sentinel .ErrNotProcessable).Error plainQuote) "Port" :=
  ⟨by decide, by decide, by unfold strings.Contains; decide⟩

/-- C11, as the code has it: an error returned by `Parse` is the error of the
first failing leaf, and its message contains the quoted name of every nested
field enclosing that leaf. When `newField` resolved the leaf, the message
contains the quoted resolved name if the error is the `ErrMissingRequired`
one, and the resolved name itself otherwise (a conversion error,
`ErrUnsupportedType` included). When `newField` rejected the `env` metadata,
the error matches `ErrUnknownTagValue` and the message contains the quoted
metadata. Without `env` metadata the error is `ErrNotProcessable`, with
nothing of the leaf added. -/
theorem error_context (rt : Runtime) (e : Envee) (env : Environ) (o : Struct)
    (quote : String → String) (E : GoError) (h : (e.Parse rt env o).status = .error E) :
    ∃ k l err, o.leaves[k]? = some l ∧ Reaches rt e env o k = true ∧
      (parseLeaf rt e env l.nestedPrefix l.Tag l.typ).2 = .returned err ∧
      E = wrapGroups l.groups err ∧
      (∀ g ∈ l.groups, strings.Contains (E.Error quote) (quote g.1)) ∧
      (∀ f, newField l.Tag = .ok f →
        (E.Is .ErrMissingRequired = true ∧ strings.Contains (E.Error quote) (quote f.name)) ∨
          (E.Is .ErrMissingRequired = false ∧ strings.Contains (E.Error quote) f.name)) ∧
      (∀ e0 nameVal, newField l.Tag = .error e0 →
        StructTag.Lookup l.Tag "env" = some nameVal →
        E.Is .ErrUnknownTagValue = true ∧ strings.Contains (E.Error quote) (quote nameVal)) ∧
      (StructTag.Lookup l.Tag "env" = none → err = .sentinel .ErrNotProcessable) := by
  have hw := Parse_walk rt e env o
  have h' : (walk rt e env "" o.leaves).2.2 = .error E := by rw [hw]; exact h
  obtain ⟨k, l, err, hk, hbefore, hstep, hE⟩ := walk_error rt e env "" o.leaves E h'
  have hr : Reaches rt e env o k = true := (reaches_iff rt e env o k).mpr hbefore
  rw [step_top] at hstep
  subst hE
  refine ⟨k, l, err, hk, hr, hstep, rfl, ?_, ?_, ?_, ?_⟩
  · intro g hg
    exact group_infix_wrapGroups quote err l.groups g hg
  · intro f hf
    rw [parseLeaf_ok rt e env _ _ _ f hf] at hstep
    simp only at hstep
    split at hstep
    · injection hstep with hstep
      subst hstep
      left
      refine ⟨by rw [Is_wrapGroups]; rfl, ?_⟩
      apply infix_wrapGroups
      rw [chars_missing]
      exact ⟨(GoError.sentinel Sentinel.ErrMissingRequired).chars quote ++ ": ".data, [],
        by simp⟩
    · cases hc : convertValue rt l.typ
          (resolved env (e.pfx ++ l.nestedPrefix ++ f.name) f.defValue) with
      | ok x =>
        rw [hc] at hstep
        simp only [Set] at hstep
        split at hstep <;> cases hstep
      | error e1 =>
        rw [hc] at hstep
        simp only at hstep
        injection hstep with hstep
        subst hstep
        right
        refine ⟨?_, ?_⟩
        · rw [Is_wrapGroups]
          exact convertValue_error_Is rt _ _ e1 hc .ErrMissingRequired (by decide)
        · apply infix_wrapGroups
          rw [chars_field]
          exact ⟨[], ": ".data ++ e1.chars quote, by simp⟩
  · intro e0 nameVal hf henv
    rw [parseLeaf_error rt e env _ _ _ e0 hf] at hstep
    injection hstep with hstep
    subst hstep
    have := newField_error_of_env l.Tag nameVal e0 henv hf
    subst this
    refine ⟨by rw [Is_wrapGroups]; rfl, ?_⟩
    apply infix_wrapGroups
    rw [chars_env]
    exact ⟨(GoError.sentinel Sentinel.ErrUnknownTagValue).chars quote ++ ": env:".data, [],
      by simp⟩
  · intro henv
    have hf : newField l.Tag = .error (.sentinel .ErrNotProcessable) := by
      simp [newField, henv]
    rw [parseLeaf_error rt e env _ _ _ _ hf] at hstep
    injection hstep with hstep
    exact hstep.symm

theorem error_context_witness :
    (parse rt64 New (environ [("AGE", "7")])
        (.nested "Basic" [("prefix", "BASIC_")] testConfig .nil) "").status =
        .error (.wrap "failed to parse sub struct %q: %w" ["Basic"]
          (.wrap "%w: %q" ["NAME"] (.sentinel .ErrMissingRequired))) ∧
      (GoError.wrap "failed to parse sub struct %q: %w" ["Basic"]
          (.wrap "%w: %q" ["NAME"] (.sentinel .ErrMissingRequired))).Error plainQuote =
        "failed to parse sub struct \"Basic\": missing required variable: \"NAME\"" ∧
      ∃ k l err, (Struct.nested "Basic" [("prefix", "BASIC_")] testConfig .nil).leaves[k]? =
          some l ∧
        Reaches rt64 New (environ [("AGE", "7")])
          (.nested "Basic" [("prefix", "BASIC_")] testConfig .nil) k = true ∧
        (parseLeaf rt64 New (environ [("AGE", "7")]) l.nestedPrefix l.Tag l.typ).2 =
          .returned err ∧
        GoError.wrap "failed to parse sub struct %q: %w" ["Basic"]
          (.wrap "%w: %q" ["NAME"] (.sentinel .ErrMissingRequired)) = wrapGroups l.groups err ∧
        (∀ g ∈ l.groups,
          strings.Contains
            ((GoError.wrap "failed to parse sub struct %q: %w" ["Basic"]
              (.wrap "%w: %q" ["NAME"] (.sentinel .ErrMissingRequired))).Error plainQuote)
            (plainQuote g.1)) ∧
        (∀ f, newField l.Tag = .ok f →
          ((GoError.wrap "failed to parse sub struct %q: %w" ["Basic"]
              (.wrap "%w: %q" ["NAME"] (.sentinel .ErrMissingRequired))).Is
                .ErrMissingRequired = true ∧
            strings.Contains
              ((GoError.wrap "failed to parse sub struct %q: %w" ["Basic"]
                (.wrap "%w: %q" ["NAME"] (.sentinel .ErrMissingRequired))).Error plainQuote)
              (plainQuote f.name)) ∨
            ((GoError.wrap "failed to parse sub struct %q: %w" ["Basic"]
              (.wrap "%w: %q" ["NAME"] (.sentinel .ErrMissingRequired))).Is
                .ErrMissingRequired = false ∧
            strings.Contains
              ((GoError.wrap "failed to parse sub struct %q: %w" ["Basic"]
                (.wrap "%w: %q" ["NAME"] (.sentinel .ErrMissingRequired))).Error plainQuote)
              f.name)) ∧
        (∀ e0 nameVal, newField l.Tag = .error e0 →
          StructTag.Lookup l.Tag "env" = some nameVal →
          (GoError.wrap "failed to parse sub struct %q: %w" ["Basic"]
              (.wrap "%w: %q" ["NAME"] (.sentinel .ErrMissingRequired))).Is
                .ErrUnknownTagValue = true ∧
            strings.Contains
              ((GoError.wrap "failed to parse sub struct %q: %w" ["Basic"]
                (.wrap "%w: %q" ["NAME"] (.sentinel .ErrMissingRequired))).Error plainQuote)
              (plainQuote nameVal)) ∧
        (StructTag.Lookup l.Tag "env" = none → err = .sentinel .ErrNotProcessable) :=
  ⟨by decide, by decide,
    error_context rt64 New (environ [("AGE", "7")])
      (.nested "Basic" [("prefix", "BASIC_")] testConfig .nil) plainQuote _ (by decide)⟩

end envee
